import Mathlib

/-! # sda-common: the database connection supervisor

A shallow embedding of `database/database.go` and `database/db_functions.go`.

* `DBConf`, `SDAdb` and the four tuning variables are the Go declarations.
* `database/sql`, `time` and the network are outside the repository. They are
  represented by a `Backend` (an oracle answering the n-th `sql.Open`, the n-th
  `Ping` and the n-th statement) and a `World` (clock, call counters, the handles
  that are open, and the chronological trace of every call made).
* A handle (`*sql.DB`) is the index of the `sql.Open` call that created it; the nil
  pointer is `none`.  A method of `*sql.DB` called on the nil pointer dereferences it
  and panics; a method called on a closed handle fails with "sql: database is closed".
* Durations and instants are integers (nanoseconds).  `time.Since` saturates at
  `2^63 - 1`; every comparison of the source has an `int64` tunable on one side, for
  which the saturated and the exact difference compare alike, so the exact
  difference is used.
* The retry loop of `Connect` may run forever, so it takes fuel: one unit per
  iteration of the loop body.  `Outcome.outOfFuel` means "has not returned yet".
-/

namespace Database

/-! ## Data model (database.go:17-63) -/

/-- DBConf stores information about how to connect to the database backend. -/
structure DBConf where
  Host : String
  Port : Int
  User : String
  Password : String
  Database : String
  CACert : String
  SslMode : String
  ClientCert : String
  ClientKey : String
deriving DecidableEq, Repr

/-- SDAdb is the receiver of the database methods; `db` is the `*sql.DB` pointer. -/
structure SDAdb where
  db : Option Nat
  Version : Int
  Config : DBConf
deriving DecidableEq, Repr

/-- The package-level variables `ConnectTimeout`, `FastConnectTimeout`,
`FastConnectRate` and `SlowConnectRate` (nanoseconds). -/
structure Tunables where
  ConnectTimeout : Int
  FastConnectTimeout : Int
  FastConnectRate : Int
  SlowConnectRate : Int
deriving DecidableEq, Repr

/-- The values the variables are initialised with: 1 h, 2 min, 5 s, 1 min. -/
def defaultTunables : Tunables :=
  ⟨3600 * 1000000000, 120 * 1000000000, 5 * 1000000000, 60 * 1000000000⟩

/-! ## The environment: `database/sql`, `time`, and the server behind them -/

/-- One call made to the outside, as recorded in the trace. -/
inductive Event where
  | ping (h : Nat) (ok : Bool)
  | sqlOpen (driverName dataSourceName : String) (ok : Bool)
  | sleep (d : Int)
  | close (h : Nat)
  | queryRow (h : Nat) (query : String) (args : List String)
  | exec (h : Nat) (query : String) (args : List String)
deriving DecidableEq, Repr

/-- The server and network: how the n-th call of each kind is answered and how long
it takes.  `openErr n = none` means the n-th `sql.Open` succeeds. -/
structure Backend where
  openErr : Nat → Option String
  openCost : Nat → Nat
  pingOk : Nat → Bool
  pingCost : Nat → Nat
  queryRow : Nat → String → List String → Except String String
  exec : Nat → String → List String → Option String

/-- Everything outside the `SDAdb` value that the methods read or change. -/
structure World where
  now : Int
  opens : Nat
  pings : Nat
  stmts : Nat
  live : List Nat
  trace : List Event
deriving DecidableEq, Repr

/-- How a call ends: it returns a value, it panics (nil pointer dereference), or the
fuel given to the retry loop is used up before it returns. -/
inductive Outcome (α : Type) where
  | returned (v : α) (w : World) (dbs : SDAdb)
  | panicked (w : World) (dbs : SDAdb)
  | outOfFuel
deriving DecidableEq, Repr

/-- Statements sent to the server (as opposed to pings, opens, sleeps, closes). -/
def Event.isStatement : Event → Bool
  | .queryRow _ _ _ => true
  | .exec _ _ _ => true
  | _ => false

/-- Calls that reach the server or the driver: everything but a sleep. -/
def Event.isBackendCall : Event → Bool
  | .sleep _ => false
  | _ => true

/-- Model of `sql.Open`: the next answer of the backend; a success creates a new open
handle, a failure yields the nil pointer and the error. -/
def sqlOpen (b : Backend) (w : World) (driverName dataSourceName : String) :
    Except String Nat × World :=
  match b.openErr w.opens with
  | none =>
    (.ok w.opens,
      { w with now := w.now + b.openCost w.opens, opens := w.opens + 1,
               live := w.opens :: w.live,
               trace := w.trace ++ [Event.sqlOpen driverName dataSourceName true] })
  | some e =>
    (.error e,
      { w with now := w.now + b.openCost w.opens, opens := w.opens + 1,
               trace := w.trace ++ [Event.sqlOpen driverName dataSourceName false] })

/-- Whether `(*sql.DB).Ping` on the non-nil handle `h` returns nil: a closed handle
always answers "sql: database is closed", an open one asks the server. -/
def pingResult (b : Backend) (w : World) (h : Nat) : Bool :=
  decide (h ∈ w.live) && b.pingOk w.pings

/-- The world after `(*sql.DB).Ping` on the non-nil handle `h`. -/
def pingWorld (b : Backend) (w : World) (h : Nat) : World :=
  { w with now := w.now + b.pingCost w.pings, pings := w.pings + 1,
           trace := w.trace ++ [Event.ping h (pingResult b w h)] }

/-- Model of `(*sql.DB).Close` on an open handle: the handle is released. -/
def dbClose (w : World) (h : Nat) : World :=
  { w with live := w.live.filter (fun x => x ≠ h), trace := w.trace ++ [Event.close h] }

/-- Model of `time.Sleep`: a non-positive duration returns at once. -/
def timeSleep (w : World) (d : Int) : World :=
  { w with now := w.now + max d 0, trace := w.trace ++ [Event.sleep d] }

/-- Model of `(*sql.DB).QueryRow(query, args...).Scan(&dest)` on a non-nil handle: the
scanned value, or the error (a closed handle fails without reaching the server). -/
def dbQueryRow (b : Backend) (w : World) (h : Nat) (query : String) (args : List String) :
    Except String String × World :=
  if h ∈ w.live then
    (b.queryRow w.stmts query args,
      { w with stmts := w.stmts + 1, trace := w.trace ++ [Event.queryRow h query args] })
  else (.error "sql: database is closed", w)

/-- Model of `(*sql.DB).Exec(query, args...)` on a non-nil handle: the error, if any. -/
def dbExec (b : Backend) (w : World) (h : Nat) (query : String) (args : List String) :
    Option String × World :=
  if h ∈ w.live then
    (b.exec w.stmts query args,
      { w with stmts := w.stmts + 1, trace := w.trace ++ [Event.exec h query args] })
  else (some "sql: database is closed", w)

/-! ## database.go -/

/-- The verb `%d` of `fmt.Sprintf` applied to an `int`. -/
def fmtD (n : Int) : String := toString n

/-- PgDataSource builds a postgresql data source string to use with sql.Open()
(database.go:125-146).  The result is (driver name, connection string). -/
def PgDataSource (config : DBConf) : String × String :=
  let connInfo := "host=" ++ config.Host ++ " port=" ++ fmtD config.Port ++
    " user=" ++ config.User ++ " password=" ++ config.Password ++
    " dbname=" ++ config.Database ++ " sslmode=" ++ config.SslMode
  if config.SslMode = "disable" then
    ("postgres", connInfo)
  else
    let connInfo :=
      if config.CACert ≠ "" then connInfo ++ (" sslrootcert=" ++ config.CACert) else connInfo
    let connInfo :=
      if config.ClientCert ≠ "" then connInfo ++ (" sslcert=" ++ config.ClientCert)
      else connInfo
    let connInfo :=
      if config.ClientKey ≠ "" then connInfo ++ (" sslkey=" ++ config.ClientKey) else connInfo
    ("postgres", connInfo)

/-- The message of the error `Connect` starts from (database.go:100). -/
def defaultConnectError : String := "failed to connect within reconnect time"

/-- The `for` loop of `Connect` (database.go:106-119).  `start` is the instant taken
at entry, `err` the current value of the variable `err`. -/
def connectLoop (b : Backend) (t : Tunables) (start : Int) :
    Nat → World → SDAdb → Option String → Outcome (Option String)
  | 0, w, dbs, err =>
    if t.ConnectTimeout ≤ 0 ∨ t.ConnectTimeout > w.now - start then .outOfFuel
    else .returned err w dbs
  | fuel + 1, w, dbs, err =>
    if t.ConnectTimeout ≤ 0 ∨ t.ConnectTimeout > w.now - start then
      match sqlOpen b w (PgDataSource dbs.Config).1 (PgDataSource dbs.Config).2 with
      | (.ok h, w1) => .returned none w1 { dbs with db := some h }
      | (.error e, w1) =>
        if w1.now - start < t.FastConnectTimeout then
          connectLoop b t start fuel (timeSleep w1 t.FastConnectRate)
            { dbs with db := none } (some e)
        else
          connectLoop b t start fuel (timeSleep w1 t.SlowConnectRate)
            { dbs with db := none } (some e)
    else .returned err w dbs

/-- Connect attempts to connect to the database (database.go:87-122).  The returned
value is the error, `none` for nil. -/
def Connect (b : Backend) (t : Tunables) (fuel : Nat) (w : World) (dbs : SDAdb) :
    Outcome (Option String) :=
  match dbs.db with
  | some h =>
    if pingResult b w h then .returned none (pingWorld b w h) dbs
    else connectLoop b t w.now fuel (pingWorld b w h) dbs (some defaultConnectError)
  | none => connectLoop b t w.now fuel w dbs (some defaultConnectError)

/-- checkAndReconnectIfNeeded validates the current connection with a ping and tries
to reconnect if necessary (database.go:166-172).  `Ping` on the nil pointer panics. -/
def checkAndReconnectIfNeeded (b : Backend) (t : Tunables) (fuel : Nat) (w : World)
    (dbs : SDAdb) : Outcome Unit :=
  match dbs.db with
  | none => .panicked w dbs
  | some h =>
    if pingResult b w h then .returned () (pingWorld b w h) dbs
    else
      match Connect b t fuel (pingWorld b w h) dbs with
      | .returned _ w1 dbs1 => .returned () w1 dbs1
      | .panicked w1 dbs1 => .panicked w1 dbs1
      | .outOfFuel => .outOfFuel

/-- Close terminates the connection to the database (database.go:175-181).  There is
no nil test before `dbs.db.Ping()`, and `Ping` on the nil pointer panics. -/
def Close (b : Backend) (w : World) (dbs : SDAdb) : Outcome Unit :=
  match dbs.db with
  | none => .panicked w dbs
  | some h =>
    if pingResult b w h then .returned () (dbClose (pingWorld b w h) h) dbs
    else .returned () (pingWorld b w h) dbs

/-! ## db_functions.go -/

/-- The error of the version gate of `RegisterFile`. -/
def registerFileGateError : String := "database schema v4 required for RegisterFile()"

/-- The error of the version gate of `MarkFileAsUploaded`. -/
def markFileGateError : String := "database schema v4 required for MarkFileAsUploaded()"

/-- The statement of `RegisterFile`. -/
def registerFileQuery : String := "SELECT sda.register_file($1, $2)"

/-- The statement of `MarkFileAsUploaded`. -/
def markFileQuery : String :=
  "INSERT INTO sda.file_event_log(file_id, event, user_id, message) VALUES ($1, 'uploaded', $2, $3)"

/-- RegisterFile inserts a file in the database (db_functions.go:12-26).  The result
is (fileId, err). -/
def RegisterFile (b : Backend) (t : Tunables) (fuel : Nat) (w : World) (dbs : SDAdb)
    (uploadPath uploadUser : String) : Outcome (String × Option String) :=
  match checkAndReconnectIfNeeded b t fuel w dbs with
  | .outOfFuel => .outOfFuel
  | .panicked w1 dbs1 => .panicked w1 dbs1
  | .returned _ w1 dbs1 =>
    if dbs1.Version < 4 then .returned ("", some registerFileGateError) w1 dbs1
    else
      match dbs1.db with
      | none => .panicked w1 dbs1
      | some h =>
        match dbQueryRow b w1 h registerFileQuery [uploadPath, uploadUser] with
        | (.ok fileId, w2) => .returned (fileId, none) w2 dbs1
        | (.error e, w2) => .returned ("", some e) w2 dbs1

/-- MarkFileAsUploaded updates a file that is currently "registered" to "uploaded"
(db_functions.go:31-43).  The result is the error, `none` for nil. -/
def MarkFileAsUploaded (b : Backend) (t : Tunables) (fuel : Nat) (w : World) (dbs : SDAdb)
    (fileId userId message : String) : Outcome (Option String) :=
  match checkAndReconnectIfNeeded b t fuel w dbs with
  | .outOfFuel => .outOfFuel
  | .panicked w1 dbs1 => .panicked w1 dbs1
  | .returned _ w1 dbs1 =>
    if dbs1.Version < 4 then .returned (some markFileGateError) w1 dbs1
    else
      match dbs1.db with
      | none => .panicked w1 dbs1
      | some h =>
        .returned (dbExec b w1 h markFileQuery [fileId, userId, message]).1
          (dbExec b w1 h markFileQuery [fileId, userId, message]).2 dbs1

/-! ## Vocabulary for stating properties of the retry loop -/

/-- The test of the `for` statement (database.go:106) at world `w`. -/
def loopTest (t : Tunables) (start : Int) (w : World) : Bool :=
  decide (t.ConnectTimeout ≤ 0 ∨ t.ConnectTimeout > w.now - start)

/-- The supervisor has no live handle: the pointer is nil, or its liveness ping fails. -/
def noLiveHandle (b : Backend) (w : World) (dbs : SDAdb) : Bool :=
  match dbs.db with
  | none => true
  | some h => !pingResult b w h

/-- The world in which `Connect` reaches its loop: after the ping when there is a
handle to ping. -/
def loopEntry (b : Backend) (w : World) (dbs : SDAdb) : World :=
  match dbs.db with
  | none => w
  | some h => pingWorld b w h

/-- The world after one iteration whose `sql.Open` fails: the failed call, then the
sleep chosen at database.go:112-118. -/
def failedAttempt (b : Backend) (t : Tunables) (start : Int) (c : DBConf) (w : World) :
    World :=
  if (sqlOpen b w (PgDataSource c).1 (PgDataSource c).2).2.now - start
      < t.FastConnectTimeout then
    timeSleep (sqlOpen b w (PgDataSource c).1 (PgDataSource c).2).2 t.FastConnectRate
  else
    timeSleep (sqlOpen b w (PgDataSource c).1 (PgDataSource c).2).2 t.SlowConnectRate

/-- The world after `n` iterations in a row whose `sql.Open` fails. -/
def afterFailures (b : Backend) (t : Tunables) (start : Int) (c : DBConf) :
    Nat → World → World
  | 0, w => w
  | n + 1, w => afterFailures b t start c n (failedAttempt b t start c w)

/-- The value of `time.Since(start)` at database.go:112 in iteration `i + 1` of the
loop entered at `w`, when the first `i` iterations failed: the clock after the
`sql.Open` of that iteration, less `start`. -/
def elapsedAtChoice (b : Backend) (t : Tunables) (start : Int) (c : DBConf) (i : Nat)
    (w : World) : Int :=
  (afterFailures b t start c i w).now + b.openCost (afterFailures b t start c i w).opens
    - start

/-- The two-tier backoff as the specification words it: the fast rate while the elapsed
time is inside the fast window, the slow rate otherwise. -/
def backoffRate (t : Tunables) (elapsed : Int) : Int :=
  if elapsed < t.FastConnectTimeout then t.FastConnectRate else t.SlowConnectRate

/-- The clock after `n` failed iterations as the specification describes them: each
takes the time of its `sql.Open` and then sleeps for the rate of the time elapsed.
`now` is the clock, and `opens` the number of earlier `sql.Open` calls, when the first
of the `n` iterations starts. -/
def backoffClock (b : Backend) (t : Tunables) (start : Int) : Nat → Int → Nat → Int
  | 0, now, _ => now
  | n + 1, now, opens =>
    backoffClock b t start n
      (now + b.openCost opens + max (backoffRate t (now + b.openCost opens - start)) 0)
      (opens + 1)

/-- The calls of `n` failed iterations as the specification describes them: a failed
`sql.Open`, then one sleep for the rate of the time elapsed, `n` times over. -/
def backoffEvents (b : Backend) (t : Tunables) (start : Int) (c : DBConf) :
    Nat → Int → Nat → List Event
  | 0, _, _ => []
  | n + 1, now, opens =>
    Event.sqlOpen (PgDataSource c).1 (PgDataSource c).2 false ::
    Event.sleep (backoffRate t (now + b.openCost opens - start)) ::
    backoffEvents b t start c n
      (now + b.openCost opens + max (backoffRate t (now + b.openCost opens - start)) 0)
      (opens + 1)

/-- The number of `time.Sleep` calls in a trace. -/
def sleepCount (tr : List Event) : Nat :=
  tr.countP (fun e => match e with | .sleep _ => true | _ => false)

/-- The number of `(*sql.DB).Close` calls in a trace. -/
def closeCount (tr : List Event) : Nat :=
  tr.countP (fun e => match e with | .close _ => true | _ => false)

/-- The number of handles created: successful `sql.Open` calls in a trace. -/
def openedCount (tr : List Event) : Nat :=
  tr.countP (fun e => match e with | .sqlOpen _ _ true => true | _ => false)

/-- The trace of `w1` continues that of `w` by the calls `evs`, none of them a
statement. -/
def ContinuesWith (w w1 : World) (evs : List Event) : Prop :=
  w1.trace = w.trace ++ evs ∧ ∀ e ∈ evs, Event.isStatement e = false

/-- What a ping or a reconnect leaves alone: no statement is sent, no handle is
released, Version and Config keep their values. -/
structure Untouched (w w1 : World) (dbs dbs1 : SDAdb) : Prop where
  stmts : w1.stmts = w.stmts
  calls : ∃ evs, ContinuesWith w w1 evs
  closes : closeCount w1.trace = closeCount w.trace
  live : ∀ x, x ∈ w.live → x ∈ w1.live
  version : dbs1.Version = dbs.Version
  config : dbs1.Config = dbs.Config

/-- The handles that are open are at most the one handle the supervisor holds. -/
def OnlyCurrentLive (w : World) (dbs : SDAdb) : Prop :=
  w.live = [] ∨ ∃ h, dbs.db = some h ∧ w.live = [h]

/-- The states reachable from a fresh supervisor (nil handle, nothing opened) by
calls of Connect, checkAndReconnectIfNeeded, RegisterFile, MarkFileAsUploaded and
Close that return. -/
inductive Reachable (b : Backend) (t : Tunables) : World → SDAdb → Prop where
  | fresh (w : World) (dbs : SDAdb) : w.live = [] → dbs.db = none → Reachable b t w dbs
  | connect (w : World) (dbs : SDAdb) (fuel : Nat) (r : Option String) (w1 : World)
      (dbs1 : SDAdb) : Reachable b t w dbs →
      Connect b t fuel w dbs = .returned r w1 dbs1 → Reachable b t w1 dbs1
  | check (w : World) (dbs : SDAdb) (fuel : Nat) (w1 : World) (dbs1 : SDAdb) :
      Reachable b t w dbs →
      checkAndReconnectIfNeeded b t fuel w dbs = .returned () w1 dbs1 →
      Reachable b t w1 dbs1
  | register (w : World) (dbs : SDAdb) (fuel : Nat) (uploadPath uploadUser : String)
      (r : String × Option String) (w1 : World) (dbs1 : SDAdb) : Reachable b t w dbs →
      RegisterFile b t fuel w dbs uploadPath uploadUser = .returned r w1 dbs1 →
      Reachable b t w1 dbs1
  | mark (w : World) (dbs : SDAdb) (fuel : Nat) (fileId userId message : String)
      (r : Option String) (w1 : World) (dbs1 : SDAdb) : Reachable b t w dbs →
      MarkFileAsUploaded b t fuel w dbs fileId userId message = .returned r w1 dbs1 →
      Reachable b t w1 dbs1
  | close (w : World) (dbs : SDAdb) (w1 : World) (dbs1 : SDAdb) : Reachable b t w dbs →
      Close b w dbs = .returned () w1 dbs1 → Reachable b t w1 dbs1

/-- Close called `n` times in a row; a panic stops the sequence. -/
def closeTimes (b : Backend) : Nat → World → SDAdb → Outcome Unit
  | 0, w, dbs => .returned () w dbs
  | n + 1, w, dbs =>
    match Close b w dbs with
    | .returned _ w1 dbs1 => closeTimes b n w1 dbs1
    | .panicked w1 dbs1 => .panicked w1 dbs1
    | .outOfFuel => .outOfFuel

/-! ## Configurations used as concrete inputs -/

/-- A backend that is down: every `sql.Open` fails, every ping fails, every statement
fails; no call takes time. -/
def backendDown : Backend :=
  { openErr := fun _ => some "connection refused"
    openCost := fun _ => 0
    pingOk := fun _ => false
    pingCost := fun _ => 0
    queryRow := fun _ _ _ => .error "connection refused"
    exec := fun _ _ _ => some "connection refused" }

/-- A backend that is up: every call succeeds at once; `register_file` answers the
file id "f1". -/
def backendUp : Backend :=
  { openErr := fun _ => none
    openCost := fun _ => 0
    pingOk := fun _ => true
    pingCost := fun _ => 0
    queryRow := fun _ _ _ => .ok "f1"
    exec := fun _ _ _ => none }

/-- A backend on which `sql.Open` succeeds but the first ping of an open handle fails
(a network blip); later pings succeed. -/
def backendBlip : Backend :=
  { openErr := fun _ => none
    openCost := fun _ => 0
    pingOk := fun n => decide (n ≠ 0)
    pingCost := fun _ => 0
    queryRow := fun _ _ _ => .ok "f1"
    exec := fun _ _ _ => none }

/-- A backend whose first two `sql.Open` calls fail and whose third succeeds; every
`sql.Open` takes 7 time units. -/
def backendSlowStart : Backend :=
  { openErr := fun n => if n < 2 then some "connection refused" else none
    openCost := fun _ => 7
    pingOk := fun _ => true
    pingCost := fun _ => 0
    queryRow := fun _ _ _ => .ok "f1"
    exec := fun _ _ _ => none }

/-- Small tunables: total timeout 10, fast window 4, fast rate 2, slow rate 3. -/
def shortTunables : Tunables := ⟨10, 4, 2, 3⟩

/-- Retry forever: `ConnectTimeout = 0`. -/
def foreverTunables : Tunables := ⟨0, 4, 2, 3⟩

/-- The world before the supervisor has called anything. -/
def freshWorld : World := ⟨0, 0, 0, 0, [], []⟩

/-- The world in which handle 0 has been opened and is still open. -/
def connectedWorld : World := ⟨0, 1, 0, 0, [0], []⟩

/-- The supervisor as built by `SDAdb{db: nil, Version: -1, Config: config}`. -/
def freshSDAdb (config : DBConf) : SDAdb := ⟨none, -1, config⟩

/-- A supervisor holding handle 0 with schema version `v`. -/
def connectedSDAdb (v : Int) (config : DBConf) : SDAdb := ⟨some 0, v, config⟩

/-- The configuration of the connect-string example: localhost:5555, TLS disabled,
all three TLS paths set. -/
def confDisable : DBConf :=
  ⟨"localhost", 5555, "lega_in", "secret", "lega", "/ca.pem", "disable", "/cert.pem", "/key.pem"⟩

/-- The same server with `verify-full` and only the CA path set. -/
def confVerifyFull : DBConf :=
  ⟨"localhost", 5555, "lega_in", "secret", "lega", "/ca.pem", "verify-full", "", ""⟩

/-! ## C1: the connection string -/

/-- C1. PgDataSource returns the driver name "postgres" and the six-field base string
followed, in this order, by the sslrootcert, sslcert and sslkey clauses, each present
exactly when its field is non-empty and SslMode is not "disable"; with SslMode
"disable" the result is the base string alone, and with "verify-full" and only CACert
non-empty it is the base string followed by the sslrootcert clause alone. -/
theorem PgDataSource_connection_string (c : DBConf) :
    PgDataSource c = ("postgres",
      "host=" ++ c.Host ++ " port=" ++ fmtD c.Port ++ " user=" ++ c.User ++
      " password=" ++ c.Password ++ " dbname=" ++ c.Database ++ " sslmode=" ++ c.SslMode ++
      (if c.CACert ≠ "" ∧ c.SslMode ≠ "disable" then " sslrootcert=" ++ c.CACert else "") ++
      (if c.ClientCert ≠ "" ∧ c.SslMode ≠ "disable" then " sslcert=" ++ c.ClientCert
        else "") ++
      (if c.ClientKey ≠ "" ∧ c.SslMode ≠ "disable" then " sslkey=" ++ c.ClientKey else ""))
    ∧ (c.SslMode = "disable" →
        PgDataSource c = ("postgres",
          "host=" ++ c.Host ++ " port=" ++ fmtD c.Port ++ " user=" ++ c.User ++
          " password=" ++ c.Password ++ " dbname=" ++ c.Database ++ " sslmode=disable"))
    ∧ (c.SslMode = "verify-full" → c.CACert ≠ "" → c.ClientCert = "" → c.ClientKey = "" →
        PgDataSource c = ("postgres",
          "host=" ++ c.Host ++ " port=" ++ fmtD c.Port ++ " user=" ++ c.User ++
          " password=" ++ c.Password ++ " dbname=" ++ c.Database ++ " sslmode=verify-full" ++
          (" sslrootcert=" ++ c.CACert))) := by
  refine ⟨?_, ?_, ?_⟩
  · unfold PgDataSource
    by_cases hm : c.SslMode = "disable"
    · simp [hm]
    · by_cases h1 : c.CACert = "" <;> by_cases h2 : c.ClientCert = "" <;>
        by_cases h3 : c.ClientKey = "" <;> simp [hm, h1, h2, h3, String.append_assoc]
  · intro hm
    simp [PgDataSource, hm, String.append_assoc]
  · intro hm h1 h2 h3
    simp [PgDataSource, hm, h1, h2, h3, String.append_assoc]

/-- C1 at the two configurations of the example: the disabled one yields the base
string although all three paths are set, the verify-full one adds the CA clause only. -/
theorem PgDataSource_connection_string_witness :
    PgDataSource confDisable = ("postgres",
      "host=localhost port=5555 user=lega_in password=secret dbname=lega sslmode=disable")
    ∧ PgDataSource confVerifyFull = ("postgres",
      "host=localhost port=5555 user=lega_in password=secret dbname=lega sslmode=verify-full sslrootcert=/ca.pem") := by
  refine ⟨?_, ?_⟩
  · have h := (PgDataSource_connection_string confDisable).2.1 rfl
    rw [h]; decide
  · have h := (PgDataSource_connection_string confVerifyFull).2.2 rfl (by decide) rfl rfl
    rw [h]; decide

/-! ## The retry loop, one iteration at a time -/

theorem sqlOpen_of_fail (b : Backend) (w : World) (d s e : String)
    (he : b.openErr w.opens = some e) :
    sqlOpen b w d s = (.error e,
      { w with now := w.now + b.openCost w.opens, opens := w.opens + 1,
               trace := w.trace ++ [Event.sqlOpen d s false] }) := by
  simp [sqlOpen, he]

theorem sqlOpen_of_ok (b : Backend) (w : World) (d s : String)
    (he : b.openErr w.opens = none) :
    sqlOpen b w d s = (.ok w.opens,
      { w with now := w.now + b.openCost w.opens, opens := w.opens + 1,
               live := w.opens :: w.live,
               trace := w.trace ++ [Event.sqlOpen d s true] }) := by
  simp [sqlOpen, he]

theorem connectLoop_exit (b : Backend) (t : Tunables) (start : Int) (fuel : Nat)
    (w : World) (dbs : SDAdb) (err : Option String) (h : loopTest t start w = false) :
    connectLoop b t start fuel w dbs err = .returned err w dbs := by
  simp only [loopTest, decide_eq_false_iff_not] at h
  cases fuel <;> simp [connectLoop, h]

theorem connectLoop_zero (b : Backend) (t : Tunables) (start : Int)
    (w : World) (dbs : SDAdb) (err : Option String) (h : loopTest t start w = true) :
    connectLoop b t start 0 w dbs err = .outOfFuel := by
  simp only [loopTest, decide_eq_true_eq] at h
  simp [connectLoop, h]

theorem connectLoop_fail (b : Backend) (t : Tunables) (start : Int) (fuel : Nat)
    (w : World) (dbs : SDAdb) (err : Option String) (e : String)
    (h : loopTest t start w = true) (he : b.openErr w.opens = some e) :
    connectLoop b t start (fuel + 1) w dbs err =
      connectLoop b t start fuel (failedAttempt b t start dbs.Config w)
        { dbs with db := none } (some e) := by
  simp only [loopTest, decide_eq_true_eq] at h
  rw [connectLoop, if_pos h, failedAttempt, sqlOpen_of_fail b w _ _ e he]
  simp only
  split <;> rfl

theorem connectLoop_ok (b : Backend) (t : Tunables) (start : Int) (fuel : Nat)
    (w : World) (dbs : SDAdb) (err : Option String)
    (h : loopTest t start w = true) (he : b.openErr w.opens = none) :
    connectLoop b t start (fuel + 1) w dbs err =
      .returned none (sqlOpen b w (PgDataSource dbs.Config).1 (PgDataSource dbs.Config).2).2
        { dbs with db := some w.opens } := by
  simp only [loopTest, decide_eq_true_eq] at h
  rw [connectLoop, if_pos h, sqlOpen_of_ok b w _ _ he]


theorem failedAttempt_of_fail (b : Backend) (t : Tunables) (start : Int) (c : DBConf)
    (w : World) (he : b.openErr w.opens ≠ none) :
    failedAttempt b t start c w =
      { w with
        now := w.now + b.openCost w.opens +
          max (if w.now + b.openCost w.opens - start < t.FastConnectTimeout
                then t.FastConnectRate else t.SlowConnectRate) 0,
        opens := w.opens + 1,
        trace := w.trace ++ [Event.sqlOpen (PgDataSource c).1 (PgDataSource c).2 false,
          Event.sleep (if w.now + b.openCost w.opens - start < t.FastConnectTimeout
                then t.FastConnectRate else t.SlowConnectRate)] } := by
  obtain ⟨e, he⟩ := Option.ne_none_iff_exists'.mp he
  rw [failedAttempt, sqlOpen_of_fail b w _ _ e he]
  simp only
  split <;> simp [timeSleep]

theorem afterFailures_frame (b : Backend) (t : Tunables) (start : Int) (c : DBConf) :
    ∀ (n : Nat) (w : World), (∀ i, i < n → b.openErr (w.opens + i) ≠ none) →
      (afterFailures b t start c n w).opens = w.opens + n ∧
      (afterFailures b t start c n w).live = w.live ∧
      (afterFailures b t start c n w).pings = w.pings ∧
      (afterFailures b t start c n w).stmts = w.stmts ∧
      w.now ≤ (afterFailures b t start c n w).now ∧
      sleepCount (afterFailures b t start c n w).trace = sleepCount w.trace + n ∧
      closeCount (afterFailures b t start c n w).trace = closeCount w.trace ∧
      (afterFailures b t start c n w).trace.filter Event.isStatement
        = w.trace.filter Event.isStatement := by
  intro n
  induction n with
  | zero => intro w _; simp [afterFailures]
  | succ n ih =>
    intro w hf
    have h0 : b.openErr w.opens ≠ none := by simpa using hf 0 (Nat.succ_pos n)
    have hw := failedAttempt_of_fail b t start c w h0
    have ih' := ih (failedAttempt b t start c w) (by
      intro i hi
      rw [hw]
      have := hf (i + 1) (Nat.succ_lt_succ hi)
      simpa [Nat.add_assoc, Nat.add_comm 1 i] using this)
    simp only [afterFailures]
    obtain ⟨i1, i2, i3, i4, i5, i6, i7, i8⟩ := ih'
    rw [i1, i2, i3, i4, i6, i7, i8, hw]
    refine ⟨by simp; omega, rfl, rfl, rfl, ?_, ?_, ?_, ?_⟩
    · rw [hw] at i5
      simp only at i5
      have : (0 : Int) ≤ b.openCost w.opens := Int.ofNat_nonneg _
      have h2 := le_max_right (if w.now + ↑(b.openCost w.opens) - start < t.FastConnectTimeout
                then t.FastConnectRate else t.SlowConnectRate) (0 : Int)
      omega
    · simp [sleepCount, List.countP_append, List.countP_cons]; omega
    · simp [closeCount, List.countP_append, List.countP_cons]
    · simp [List.filter_append, Event.isStatement]

theorem connectLoop_failures (b : Backend) (t : Tunables) (start : Int) :
    ∀ (n fuel : Nat) (w : World) (dbs : SDAdb) (err : Option String),
      (∀ i, i < n + 1 → b.openErr (w.opens + i) ≠ none) →
      (∀ i, i < n + 1 → loopTest t start (afterFailures b t start dbs.Config i w) = true) →
      connectLoop b t start (fuel + (n + 1)) w dbs err =
        connectLoop b t start fuel (afterFailures b t start dbs.Config (n + 1) w)
          { dbs with db := none } (b.openErr (w.opens + n)) := by
  intro n
  induction n with
  | zero =>
    intro fuel w dbs err hf ht
    have h0 : b.openErr w.opens ≠ none := by simpa using hf 0 (by omega)
    obtain ⟨e, he⟩ := Option.ne_none_iff_exists'.mp h0
    have ht0 : loopTest t start w = true := by simpa [afterFailures] using ht 0 (by omega)
    show connectLoop b t start (fuel + 1) w dbs err = _
    rw [connectLoop_fail b t start fuel w dbs err e ht0 he]
    simp [afterFailures, he]
  | succ n ih =>
    intro fuel w dbs err hf ht
    have h0 : b.openErr w.opens ≠ none := by simpa using hf 0 (by omega)
    obtain ⟨e, he⟩ := Option.ne_none_iff_exists'.mp h0
    have ht0 : loopTest t start w = true := by simpa [afterFailures] using ht 0 (by omega)
    show connectLoop b t start ((fuel + (n + 1)) + 1) w dbs err = _
    rw [connectLoop_fail b t start _ w dbs err e ht0 he]
    have hw := failedAttempt_of_fail b t start dbs.Config w h0
    have hopens : (failedAttempt b t start dbs.Config w).opens = w.opens + 1 := by rw [hw]
    have := ih fuel (failedAttempt b t start dbs.Config w) { dbs with db := none } (some e)
      (by
        intro i hi
        rw [hopens]
        have := hf (i + 1) (by omega)
        simpa [Nat.add_assoc, Nat.add_comm 1 i] using this)
      (by
        intro i hi
        exact ht (i + 1) (by omega))
    rw [this, hopens]
    simp [afterFailures, Nat.add_assoc, Nat.add_comm 1 n]

theorem connectLoop_returned (b : Backend) (t : Tunables) (start : Int) :
    ∀ (fuel : Nat) (w : World) (dbs : SDAdb) (err r : Option String) (w1 : World)
      (dbs1 : SDAdb),
      connectLoop b t start fuel w dbs err = .returned r w1 dbs1 →
      ∃ n, n ≤ fuel ∧ (∀ i, i < n → b.openErr (w.opens + i) ≠ none) ∧
        (∀ i, i < n → loopTest t start (afterFailures b t start dbs.Config i w) = true) ∧
        ((loopTest t start (afterFailures b t start dbs.Config n w) = false ∧
            w1 = afterFailures b t start dbs.Config n w ∧
            r = (if n = 0 then err else b.openErr (w.opens + (n - 1))) ∧
            dbs1 = (if n = 0 then dbs else { dbs with db := none })) ∨
         (loopTest t start (afterFailures b t start dbs.Config n w) = true ∧ n < fuel ∧
            b.openErr (w.opens + n) = none ∧ r = none ∧
            w1 = (sqlOpen b (afterFailures b t start dbs.Config n w)
                    (PgDataSource dbs.Config).1 (PgDataSource dbs.Config).2).2 ∧
            dbs1 = { dbs with db := some (w.opens + n) })) := by
  intro fuel
  induction fuel with
  | zero =>
    intro w dbs err r w1 dbs1 h
    cases ht : loopTest t start w with
    | true => rw [connectLoop_zero b t start w dbs err ht] at h; cases h
    | false =>
      rw [connectLoop_exit b t start 0 w dbs err ht] at h
      cases h
      exact ⟨0, le_refl _, by simp, by simp, Or.inl ⟨by simpa [afterFailures] using ht,
        rfl, by simp, by simp⟩⟩
  | succ fuel ih =>
    intro w dbs err r w1 dbs1 h
    cases ht : loopTest t start w with
    | false =>
      rw [connectLoop_exit b t start _ w dbs err ht] at h
      cases h
      exact ⟨0, Nat.zero_le _, by simp, by simp, Or.inl ⟨by simpa [afterFailures] using ht,
        rfl, by simp, by simp⟩⟩
    | true =>
      cases he : b.openErr w.opens with
      | none =>
        rw [connectLoop_ok b t start fuel w dbs err ht he] at h
        cases h
        exact ⟨0, Nat.zero_le _, by simp, by simp, Or.inr ⟨by simpa [afterFailures] using ht,
          Nat.succ_pos _, by simpa using he, rfl, by simp [afterFailures], by simp⟩⟩
      | some e =>
        rw [connectLoop_fail b t start fuel w dbs err e ht he] at h
        have hne : b.openErr w.opens ≠ none := by simp [he]
        have hw := failedAttempt_of_fail b t start dbs.Config w hne
        have hopens : (failedAttempt b t start dbs.Config w).opens = w.opens + 1 := by rw [hw]
        obtain ⟨n, hn, hf, hts, hcase⟩ := ih _ _ _ _ _ _ h
        rw [hopens] at hf hcase
        refine ⟨n + 1, Nat.succ_le_succ hn, ?_, ?_, ?_⟩
        · intro i hi
          cases i with
          | zero => simpa using hne
          | succ i =>
            have := hf i (by omega)
            simpa [Nat.add_assoc, Nat.add_comm 1 i] using this
        · intro i hi
          cases i with
          | zero => simpa [afterFailures] using ht
          | succ i => exact hts i (by omega)
        · rcases hcase with ⟨h1, h2, h3, h4⟩ | ⟨h1, h2, h3, h4, h5, h6⟩
          · refine Or.inl ⟨h1, h2, ?_, ?_⟩
            · rw [h3]
              cases n with
              | zero => simp [he]
              | succ m => simp [Nat.add_assoc, Nat.add_comm 1 m]
            · rw [h4]
              cases n <;> simp
          · refine Or.inr ⟨h1, by omega, ?_, h4, h5, ?_⟩
            · simpa [Nat.add_assoc, Nat.add_comm 1 n] using h3
            · rw [h6]
              simp [Nat.add_assoc, Nat.add_comm 1 n]

theorem connectLoop_after (b : Backend) (t : Tunables) (start : Int)
    (n fuel : Nat) (w : World) (dbs : SDAdb) (err : Option String)
    (hf : ∀ i, i < n → b.openErr (w.opens + i) ≠ none)
    (ht : ∀ i, i < n → loopTest t start (afterFailures b t start dbs.Config i w) = true) :
    connectLoop b t start (fuel + n) w dbs err =
      connectLoop b t start fuel (afterFailures b t start dbs.Config n w)
        (if n = 0 then dbs else { dbs with db := none })
        (if n = 0 then err else b.openErr (w.opens + (n - 1))) := by
  cases n with
  | zero => simp [afterFailures]
  | succ n => simpa using connectLoop_failures b t start n fuel w dbs err hf ht

theorem loopEntry_frame (b : Backend) (w : World) (dbs : SDAdb) :
    (loopEntry b w dbs).opens = w.opens ∧ (loopEntry b w dbs).live = w.live ∧
    (loopEntry b w dbs).stmts = w.stmts ∧
    w.now ≤ (loopEntry b w dbs).now ∧
    sleepCount (loopEntry b w dbs).trace = sleepCount w.trace ∧
    closeCount (loopEntry b w dbs).trace = closeCount w.trace ∧
    (loopEntry b w dbs).trace.filter Event.isStatement = w.trace.filter Event.isStatement := by
  unfold loopEntry
  cases dbs.db with
  | none => simp
  | some h =>
    simp [pingWorld, sleepCount, closeCount, List.countP_append, List.filter_append,
      Event.isStatement]

theorem Connect_of_noLiveHandle (b : Backend) (t : Tunables) (fuel : Nat) (w : World)
    (dbs : SDAdb) (hdead : noLiveHandle b w dbs = true) :
    Connect b t fuel w dbs =
      connectLoop b t w.now fuel (loopEntry b w dbs) dbs (some defaultConnectError) := by
  unfold Connect noLiveHandle loopEntry at *
  cases hdb : dbs.db with
  | none => simp
  | some h =>
    rw [hdb] at hdead
    simp only [Bool.not_eq_true'] at hdead
    simp [hdead]

theorem loopTest_of_pos (t : Tunables) (start : Int) (w : World) (hCT : 0 < t.ConnectTimeout) :
    loopTest t start w = decide (w.now - start < t.ConnectTimeout) := by
  unfold loopTest
  by_cases h : w.now - start < t.ConnectTimeout
  · simp [h]
  · simp [h]; omega

/-! ## C4: the error of a Connect that times out -/

/-- C4 (amended). With a positive ConnectTimeout and no live handle, when the first n
attempts to open a handle fail and the timeout has elapsed after the n-th but not
before, Connect returns a non-nil error: the error of the last failed attempt, and the
error "failed to connect within reconnect time" only when no attempt was made. -/
theorem Connect_error_when_timeout_elapses (b : Backend) (t : Tunables) (w : World)
    (dbs : SDAdb) (n fuel : Nat)
    (hCT : 0 < t.ConnectTimeout)
    (hdead : noLiveHandle b w dbs = true)
    (hfail : ∀ i, i < n → b.openErr (w.opens + i) ≠ none)
    (hrun : ∀ i, i < n →
      (afterFailures b t w.now dbs.Config i (loopEntry b w dbs)).now - w.now
        < t.ConnectTimeout)
    (hout : t.ConnectTimeout ≤
      (afterFailures b t w.now dbs.Config n (loopEntry b w dbs)).now - w.now)
    (hfuel : n ≤ fuel) :
    Connect b t fuel w dbs =
      .returned (if n = 0 then some defaultConnectError else b.openErr (w.opens + (n - 1)))
        (afterFailures b t w.now dbs.Config n (loopEntry b w dbs))
        (if n = 0 then dbs else { dbs with db := none })
    ∧ (if n = 0 then some defaultConnectError else b.openErr (w.opens + (n - 1))) ≠ none := by
  obtain ⟨k, rfl⟩ := Nat.exists_eq_add_of_le hfuel
  have hop := (loopEntry_frame b w dbs).1
  constructor
  · rw [Connect_of_noLiveHandle b t _ w dbs hdead, Nat.add_comm n k,
      connectLoop_after b t w.now n k (loopEntry b w dbs) dbs _
        (by intro i hi; rw [hop]; exact hfail i hi)
        (by intro i hi; rw [loopTest_of_pos t _ _ hCT]; simpa using hrun i hi),
      connectLoop_exit, hop]
    rw [loopTest_of_pos t _ _ hCT]
    simpa using hout
  · cases n with
    | zero => simp
    | succ m => simpa using hfail m (Nat.lt_succ_self m)

/-- C4 (amended) on the backend that is down, with timeout 10 and rates 2 and 3: four
attempts fail, then the error of the fourth is returned. -/
theorem Connect_error_when_timeout_elapses_witness :
    Connect backendDown shortTunables 4 freshWorld (freshSDAdb confDisable) =
      .returned (some "connection refused")
        (afterFailures backendDown shortTunables 0 confDisable 4 freshWorld)
        ⟨none, -1, confDisable⟩ :=
  (Connect_error_when_timeout_elapses backendDown shortTunables freshWorld
    (freshSDAdb confDisable) 4 4 (by decide) rfl (by intro i _; simp [backendDown])
    (by
      intro i hi
      have : i = 0 ∨ i = 1 ∨ i = 2 ∨ i = 3 := by omega
      rcases this with rfl | rfl | rfl | rfl <;> decide)
    (by decide) (le_refl _)).1

/-- C4 as stated fails: with timeout 10, no handle and every attempt failing, Connect
returns the error of its last attempt, not "failed to connect within reconnect time". -/
theorem Connect_timeout_message_counterexample :
    0 < shortTunables.ConnectTimeout ∧
    noLiveHandle backendDown freshWorld (freshSDAdb confDisable) = true ∧
    (∀ i, backendDown.openErr i ≠ none) ∧
    (∃ w1 dbs1, Connect backendDown shortTunables 4 freshWorld (freshSDAdb confDisable) =
        .returned (some "connection refused") w1 dbs1 ∧
      w1.opens = 4 ∧ shortTunables.ConnectTimeout ≤ w1.now - freshWorld.now) ∧
    "connection refused" ≠ defaultConnectError :=
  ⟨by decide, rfl, by intro i; simp [backendDown], ⟨_, _, rfl, rfl, by decide⟩, by decide⟩

/-! ## What a reconnect leaves alone -/

theorem continuesWith_refl (w : World) : ContinuesWith w w [] := by
  simp [ContinuesWith]

theorem continuesWith_trans {w w1 w2 : World} {e1 e2 : List Event}
    (h1 : ContinuesWith w w1 e1) (h2 : ContinuesWith w1 w2 e2) :
    ContinuesWith w w2 (e1 ++ e2) := by
  refine ⟨by rw [h2.1, h1.1, List.append_assoc], ?_⟩
  intro e he
  rcases List.mem_append.mp he with h | h
  · exact h1.2 e h
  · exact h2.2 e h

theorem continuesWith_filter_eq {w w1 : World} {evs : List Event}
    (h : ContinuesWith w w1 evs) :
    w1.trace.filter Event.isStatement = w.trace.filter Event.isStatement := by
  rw [h.1, List.filter_append]
  have : evs.filter Event.isStatement = [] := by
    rw [List.filter_eq_nil_iff]
    intro e he
    simp [h.2 e he]
  simp [this]

theorem afterFailures_calls (b : Backend) (t : Tunables) (start : Int) (c : DBConf) :
    ∀ (n : Nat) (w : World), (∀ i, i < n → b.openErr (w.opens + i) ≠ none) →
      (∃ evs, ContinuesWith w (afterFailures b t start c n w) evs) ∧
      openedCount (afterFailures b t start c n w).trace = openedCount w.trace := by
  intro n
  induction n with
  | zero => intro w _; exact ⟨⟨[], continuesWith_refl w⟩, rfl⟩
  | succ n ih =>
    intro w hf
    have h0 : b.openErr w.opens ≠ none := by simpa using hf 0 (Nat.succ_pos n)
    have hw := failedAttempt_of_fail b t start c w h0
    obtain ⟨⟨evs, hevs⟩, hcount⟩ := ih (failedAttempt b t start c w) (by
      intro i hi
      rw [hw]
      have := hf (i + 1) (Nat.succ_lt_succ hi)
      simpa [Nat.add_assoc, Nat.add_comm 1 i] using this)
    simp only [afterFailures]
    have hstep : ∃ e1, ContinuesWith w (failedAttempt b t start c w) e1 := by
      rw [hw]
      exact ⟨_, rfl, by simp [Event.isStatement]⟩
    obtain ⟨e1, he1⟩ := hstep
    refine ⟨⟨e1 ++ evs, continuesWith_trans he1 hevs⟩, ?_⟩
    · rw [hcount, hw]
      simp [openedCount, List.countP_append, List.countP_cons]

theorem pingWorld_untouched (b : Backend) (w : World) (dbs : SDAdb) (h : Nat) :
    Untouched w (pingWorld b w h) dbs dbs ∧
    openedCount (pingWorld b w h).trace = openedCount w.trace ∧
    (pingWorld b w h).live = w.live ∧ (pingWorld b w h).opens = w.opens := by
  refine ⟨⟨rfl, ⟨[Event.ping h (pingResult b w h)], rfl, by simp [Event.isStatement]⟩, ?_,
    fun x hx => hx, rfl, rfl⟩, ?_, rfl, rfl⟩
  · simp [pingWorld, closeCount, List.countP_append, List.countP_cons]
  · simp [pingWorld, openedCount, List.countP_append, List.countP_cons]

theorem untouched_trans {w w1 w2 : World} {dbs dbs1 dbs2 : SDAdb}
    (h1 : Untouched w w1 dbs dbs1) (h2 : Untouched w1 w2 dbs1 dbs2) :
    Untouched w w2 dbs dbs2 := by
  obtain ⟨e1, he1⟩ := h1.calls
  obtain ⟨e2, he2⟩ := h2.calls
  exact ⟨h2.stmts.trans h1.stmts, ⟨_, continuesWith_trans he1 he2⟩, h2.closes.trans h1.closes,
    fun x hx => h2.live x (h1.live x hx), h2.version.trans h1.version,
    h2.config.trans h1.config⟩

theorem sqlOpen_ok_untouched (b : Backend) (w : World) (dbs : SDAdb) (d s : String)
    (he : b.openErr w.opens = none) (v : Option Nat) :
    Untouched w (sqlOpen b w d s).2 dbs { dbs with db := v } ∧
    openedCount (sqlOpen b w d s).2.trace = openedCount w.trace + 1 ∧
    (sqlOpen b w d s).2.live = w.opens :: w.live := by
  rw [sqlOpen_of_ok b w d s he]
  refine ⟨⟨rfl, ⟨[Event.sqlOpen d s true], rfl, by simp [Event.isStatement]⟩, ?_,
    fun x hx => List.mem_cons_of_mem _ hx, rfl, rfl⟩, ?_, rfl⟩
  · simp [closeCount, List.countP_append, List.countP_cons]
  · simp [openedCount, List.countP_append, List.countP_cons]

theorem afterFailures_untouched (b : Backend) (t : Tunables) (start : Int) (c : DBConf)
    (n : Nat) (w : World) (dbs : SDAdb) (v : Option Nat)
    (hf : ∀ i, i < n → b.openErr (w.opens + i) ≠ none) :
    Untouched w (afterFailures b t start c n w) dbs { dbs with db := v } := by
  obtain ⟨-, h2, -, h4, -, -, h7, -⟩ := afterFailures_frame b t start c n w hf
  exact ⟨h4, (afterFailures_calls b t start c n w hf).1, h7, fun x hx => by rw [h2]; exact hx,
    rfl, rfl⟩

/-- What the retry loop does when it returns: nothing but failed opens and sleeps,
then either the timeout (handle list unchanged) or one new handle, stored. -/
theorem connectLoop_untouched (b : Backend) (t : Tunables) (start : Int) (fuel : Nat)
    (w : World) (dbs : SDAdb) (err r : Option String) (w1 : World) (dbs1 : SDAdb)
    (h : connectLoop b t start fuel w dbs err = .returned r w1 dbs1) :
    Untouched w w1 dbs dbs1 ∧ openedCount w1.trace ≤ openedCount w.trace + 1 ∧
    ((w1.live = w.live ∧ (dbs1 = dbs ∨ dbs1.db = none) ∧ (err ≠ none → r ≠ none)) ∨
     (r = none ∧ ∃ x, dbs1.db = some x ∧ w1.live = x :: w.live ∧
        openedCount w1.trace = openedCount w.trace + 1)) := by
  obtain ⟨n, -, hf, -, hcase⟩ := connectLoop_returned b t start fuel w dbs err r w1 dbs1 h
  have hfr := afterFailures_frame b t start dbs.Config n w hf
  have hcalls := afterFailures_calls b t start dbs.Config n w hf
  rcases hcase with ⟨-, h2, h3, h4⟩ | ⟨-, -, h3, h4, h5, h6⟩
  · subst h2
    refine ⟨?_, by rw [hcalls.2]; omega, Or.inl ⟨hfr.2.1, ?_, ?_⟩⟩
    · have := afterFailures_untouched b t start dbs.Config n w dbs dbs1.db hf
      cases n with
      | zero =>
        simp only [if_true] at h4
        subst h4
        simpa using this
      | succ m =>
        simp only [Nat.succ_ne_zero, if_false] at h4
        rw [h4] at this ⊢
        simpa using this
    · cases n with
      | zero => left; simpa using h4
      | succ m => right; rw [h4]; simp
    · intro herr
      cases n with
      | zero => simpa [h3] using herr
      | succ m => rw [h3]; simpa using hf m (Nat.lt_succ_self m)
  · have hopen : b.openErr (afterFailures b t start dbs.Config n w).opens = none := by
      rw [hfr.1]; exact h3
    have hs := sqlOpen_ok_untouched b (afterFailures b t start dbs.Config n w)
      { dbs with db := none } (PgDataSource dbs.Config).1 (PgDataSource dbs.Config).2 hopen
      (some (w.opens + n))
    have ha := afterFailures_untouched b t start dbs.Config n w dbs none hf
    subst h5 h6
    refine ⟨?_, ?_, Or.inr ⟨h4, w.opens + n, rfl, ?_, ?_⟩⟩
    · exact untouched_trans ha hs.1
    · rw [hs.2.1, hcalls.2]
    · rw [hs.2.2, hfr.1, hfr.2.1]
    · rw [hs.2.1, hcalls.2]

theorem Connect_returned (b : Backend) (t : Tunables) (fuel : Nat) (w : World) (dbs : SDAdb)
    (r : Option String) (w1 : World) (dbs1 : SDAdb)
    (h : Connect b t fuel w dbs = .returned r w1 dbs1) :
    (∃ x, dbs.db = some x ∧ pingResult b w x = true ∧ r = none ∧ w1 = pingWorld b w x ∧
        dbs1 = dbs) ∨
    (noLiveHandle b w dbs = true ∧
      connectLoop b t w.now fuel (loopEntry b w dbs) dbs (some defaultConnectError)
        = .returned r w1 dbs1) := by
  cases hdead : noLiveHandle b w dbs with
  | true =>
    right
    rw [Connect_of_noLiveHandle b t fuel w dbs hdead] at h
    exact ⟨rfl, h⟩
  | false =>
    left
    unfold noLiveHandle at hdead
    cases hdb : dbs.db with
    | none => rw [hdb] at hdead; simp at hdead
    | some x =>
      rw [hdb] at hdead
      simp only [Bool.not_eq_false'] at hdead
      unfold Connect at h
      rw [hdb] at h
      simp only [hdead, if_true] at h
      cases h
      exact ⟨x, rfl, hdead, rfl, rfl, rfl⟩

theorem loopEntry_untouched (b : Backend) (w : World) (dbs : SDAdb) :
    Untouched w (loopEntry b w dbs) dbs dbs ∧
    openedCount (loopEntry b w dbs).trace = openedCount w.trace := by
  unfold loopEntry
  cases dbs.db with
  | none =>
    exact ⟨⟨rfl, ⟨[], continuesWith_refl w⟩, rfl, fun x hx => hx, rfl, rfl⟩, rfl⟩
  | some x => exact ⟨(pingWorld_untouched b w dbs x).1, (pingWorld_untouched b w dbs x).2.1⟩

/-- What Connect does when it returns: pings, failed opens and sleeps, and at most one
new handle; success leaves a handle stored. -/
theorem Connect_untouched (b : Backend) (t : Tunables) (fuel : Nat) (w : World) (dbs : SDAdb)
    (r : Option String) (w1 : World) (dbs1 : SDAdb)
    (h : Connect b t fuel w dbs = .returned r w1 dbs1) :
    Untouched w w1 dbs dbs1 ∧ openedCount w1.trace ≤ openedCount w.trace + 1 ∧
    (r = none → ∃ x, dbs1.db = some x) := by
  rcases Connect_returned b t fuel w dbs r w1 dbs1 h with
    ⟨x, hdb, -, hr, hw, hd⟩ | ⟨-, hloop⟩
  · rw [hw, hd]
    have := pingWorld_untouched b w dbs x
    exact ⟨this.1, by rw [this.2.1]; omega, fun _ => ⟨x, hdb⟩⟩
  · have hl := connectLoop_untouched b t w.now fuel _ dbs _ r w1 dbs1 hloop
    have he := loopEntry_untouched b w dbs
    refine ⟨untouched_trans he.1 hl.1, by rw [← he.2]; exact hl.2.1, ?_⟩
    intro hr
    rcases hl.2.2 with ⟨-, -, hne⟩ | ⟨-, x, hx, -⟩
    · exact absurd hr (hne (by simp))
    · exact ⟨x, hx⟩

theorem checkAndReconnect_of_ping (b : Backend) (t : Tunables) (fuel : Nat) (w : World)
    (dbs : SDAdb) (x : Nat) (hdb : dbs.db = some x) (hp : pingResult b w x = true) :
    checkAndReconnectIfNeeded b t fuel w dbs = .returned () (pingWorld b w x) dbs := by
  unfold checkAndReconnectIfNeeded
  rw [hdb]
  simp [hp]

theorem checkAndReconnect_returned (b : Backend) (t : Tunables) (fuel : Nat) (w : World)
    (dbs : SDAdb) (x : Nat) (w1 : World) (dbs1 : SDAdb) (hdb : dbs.db = some x)
    (h : checkAndReconnectIfNeeded b t fuel w dbs = .returned () w1 dbs1) :
    (pingResult b w x = true ∧ w1 = pingWorld b w x ∧ dbs1 = dbs) ∨
    (pingResult b w x = false ∧
      ∃ r, Connect b t fuel (pingWorld b w x) dbs = .returned r w1 dbs1) := by
  cases hp : pingResult b w x with
  | true =>
    rw [checkAndReconnect_of_ping b t fuel w dbs x hdb hp] at h
    cases h
    exact Or.inl ⟨rfl, rfl, rfl⟩
  | false =>
    right
    unfold checkAndReconnectIfNeeded at h
    rw [hdb] at h
    simp only [hp, Bool.false_eq_true, if_false] at h
    cases hc : Connect b t fuel (pingWorld b w x) dbs with
    | returned r w2 dbs2 =>
      rw [hc] at h
      cases h
      exact ⟨rfl, r, rfl⟩
    | panicked w2 dbs2 => rw [hc] at h; cases h
    | outOfFuel => rw [hc] at h; cases h

/-- The reconnect step sends no statement, releases nothing and keeps Version and
Config; what it adds to the trace after its first ping is no statement either. -/
theorem checkAndReconnect_untouched (b : Backend) (t : Tunables) (fuel : Nat) (w : World)
    (dbs : SDAdb) (x : Nat) (w1 : World) (dbs1 : SDAdb) (hdb : dbs.db = some x)
    (h : checkAndReconnectIfNeeded b t fuel w dbs = .returned () w1 dbs1) :
    Untouched w w1 dbs dbs1 ∧ Untouched (pingWorld b w x) w1 dbs dbs1 ∧
    openedCount w1.trace ≤ openedCount w.trace + 1 := by
  have hp := pingWorld_untouched b w dbs x
  rcases checkAndReconnect_returned b t fuel w dbs x w1 dbs1 hdb h with
    ⟨-, hw, hd⟩ | ⟨-, r, hc⟩
  · rw [hw, hd]
    exact ⟨hp.1, ⟨rfl, ⟨[], continuesWith_refl _⟩, rfl, fun _ hx => hx, rfl, rfl⟩,
      by rw [hp.2.1]; omega⟩
  · have hcu := Connect_untouched b t fuel _ dbs r w1 dbs1 hc
    exact ⟨untouched_trans hp.1 hcu.1, hcu.1, by rw [← hp.2.1]; exact hcu.2.1⟩

theorem connectLoop_returns_of_ok (b : Backend) (t : Tunables) (start : Int) :
    ∀ (k fuel : Nat) (w : World) (dbs : SDAdb) (err : Option String),
      b.openErr (w.opens + k) = none → k < fuel →
      ∃ r w1 dbs1, connectLoop b t start fuel w dbs err = .returned r w1 dbs1 := by
  intro k
  induction k with
  | zero =>
    intro fuel w dbs err hk hfuel
    obtain ⟨f, rfl⟩ : ∃ f, fuel = f + 1 := ⟨fuel - 1, by omega⟩
    cases ht : loopTest t start w with
    | false => exact ⟨_, _, _, connectLoop_exit b t start _ w dbs err ht⟩
    | true => exact ⟨_, _, _, connectLoop_ok b t start f w dbs err ht (by simpa using hk)⟩
  | succ k ih =>
    intro fuel w dbs err hk hfuel
    obtain ⟨f, rfl⟩ : ∃ f, fuel = f + 1 := ⟨fuel - 1, by omega⟩
    cases ht : loopTest t start w with
    | false => exact ⟨_, _, _, connectLoop_exit b t start _ w dbs err ht⟩
    | true =>
      cases he : b.openErr w.opens with
      | none => exact ⟨_, _, _, connectLoop_ok b t start f w dbs err ht he⟩
      | some e =>
        rw [connectLoop_fail b t start f w dbs err e ht he]
        have hw := failedAttempt_of_fail b t start dbs.Config w (by simp [he])
        apply ih f
        · rw [hw]
          simpa [Nat.add_assoc, Nat.add_comm 1 k] using hk
        · omega

theorem Connect_returns_of_ok (b : Backend) (t : Tunables) (k fuel : Nat) (w : World)
    (dbs : SDAdb) (hk : b.openErr (w.opens + k) = none) (hfuel : k < fuel) :
    ∃ r w1 dbs1, Connect b t fuel w dbs = .returned r w1 dbs1 := by
  cases hdead : noLiveHandle b w dbs with
  | true =>
    rw [Connect_of_noLiveHandle b t fuel w dbs hdead]
    exact connectLoop_returns_of_ok b t w.now k fuel _ dbs _
      (by rw [(loopEntry_frame b w dbs).1]; exact hk) hfuel
  | false =>
    unfold noLiveHandle at hdead
    cases hdb : dbs.db with
    | none => rw [hdb] at hdead; simp at hdead
    | some x =>
      rw [hdb] at hdead
      simp only [Bool.not_eq_false'] at hdead
      unfold Connect
      rw [hdb]
      simp only [hdead, if_true]
      exact ⟨_, _, _, rfl⟩

theorem checkAndReconnect_returns_of_ok (b : Backend) (t : Tunables) (k fuel : Nat)
    (w : World) (dbs : SDAdb) (x : Nat) (hdb : dbs.db = some x)
    (hk : b.openErr (w.opens + k) = none) (hfuel : k < fuel) :
    ∃ w1 dbs1, checkAndReconnectIfNeeded b t fuel w dbs = .returned () w1 dbs1 := by
  cases hp : pingResult b w x with
  | true => exact ⟨_, _, checkAndReconnect_of_ping b t fuel w dbs x hdb hp⟩
  | false =>
    obtain ⟨r, w1, dbs1, hc⟩ := Connect_returns_of_ok b t k fuel (pingWorld b w x) dbs hk hfuel
    refine ⟨w1, dbs1, ?_⟩
    unfold checkAndReconnectIfNeeded
    rw [hdb]
    simp only [hp, Bool.false_eq_true, if_false, hc]

theorem connectLoop_forever (b : Backend) (t : Tunables) (start : Int) (fuel : Nat)
    (w : World) (dbs : SDAdb) (err : Option String) (hCT : t.ConnectTimeout ≤ 0)
    (hf : ∀ i, i < fuel → b.openErr (w.opens + i) ≠ none) :
    connectLoop b t start fuel w dbs err = .outOfFuel := by
  have ht : ∀ w', loopTest t start w' = true := by
    intro w'; simp [loopTest, hCT]
  have := connectLoop_after b t start fuel 0 w dbs err hf (fun i _ => ht _)
  rw [Nat.zero_add] at this
  rw [this, connectLoop_zero b t start _ _ _ (ht _)]

theorem RegisterFile_of_check (b : Backend) (t : Tunables) (fuel : Nat) (w : World)
    (dbs : SDAdb) (x : Nat) (p u : String) (w1 : World) (dbs1 : SDAdb)
    (hdb : dbs.db = some x) (hv : dbs.Version < 4)
    (h : checkAndReconnectIfNeeded b t fuel w dbs = .returned () w1 dbs1) :
    RegisterFile b t fuel w dbs p u = .returned ("", some registerFileGateError) w1 dbs1 := by
  have hver := (checkAndReconnect_untouched b t fuel w dbs x w1 dbs1 hdb h).1.version
  unfold RegisterFile
  rw [h]
  simp [hver, hv]

theorem MarkFileAsUploaded_of_check (b : Backend) (t : Tunables) (fuel : Nat) (w : World)
    (dbs : SDAdb) (x : Nat) (f u m : String) (w1 : World) (dbs1 : SDAdb)
    (hdb : dbs.db = some x) (hv : dbs.Version < 4)
    (h : checkAndReconnectIfNeeded b t fuel w dbs = .returned () w1 dbs1) :
    MarkFileAsUploaded b t fuel w dbs f u m = .returned (some markFileGateError) w1 dbs1 := by
  have hver := (checkAndReconnect_untouched b t fuel w dbs x w1 dbs1 hdb h).1.version
  unfold MarkFileAsUploaded
  rw [h]
  simp [hver, hv]

theorem connectLoop_no_panic (b : Backend) (t : Tunables) (start : Int) :
    ∀ (fuel : Nat) (w : World) (dbs : SDAdb) (err : Option String) (w1 : World)
      (dbs1 : SDAdb), connectLoop b t start fuel w dbs err ≠ .panicked w1 dbs1 := by
  intro fuel
  induction fuel with
  | zero =>
    intro w dbs err w1 dbs1
    cases ht : loopTest t start w with
    | true => rw [connectLoop_zero b t start w dbs err ht]; simp
    | false => rw [connectLoop_exit b t start 0 w dbs err ht]; simp
  | succ fuel ih =>
    intro w dbs err w1 dbs1
    cases ht : loopTest t start w with
    | false => rw [connectLoop_exit b t start _ w dbs err ht]; simp
    | true =>
      cases he : b.openErr w.opens with
      | none => rw [connectLoop_ok b t start fuel w dbs err ht he]; simp
      | some e => rw [connectLoop_fail b t start fuel w dbs err e ht he]; exact ih _ _ _ _ _

theorem Connect_no_panic (b : Backend) (t : Tunables) (fuel : Nat) (w : World) (dbs : SDAdb)
    (w1 : World) (dbs1 : SDAdb) : Connect b t fuel w dbs ≠ .panicked w1 dbs1 := by
  unfold Connect
  cases dbs.db with
  | none => exact connectLoop_no_panic b t _ _ _ _ _ _ _
  | some x =>
    simp only
    split
    · simp
    · exact connectLoop_no_panic b t _ _ _ _ _ _ _

theorem checkAndReconnect_no_panic (b : Backend) (t : Tunables) (fuel : Nat) (w : World)
    (dbs : SDAdb) (x : Nat) (hdb : dbs.db = some x) :
    checkAndReconnectIfNeeded b t fuel w dbs = .outOfFuel ∨
    ∃ w1 dbs1, checkAndReconnectIfNeeded b t fuel w dbs = .returned () w1 dbs1 := by
  cases hp : pingResult b w x with
  | true => exact Or.inr ⟨_, _, checkAndReconnect_of_ping b t fuel w dbs x hdb hp⟩
  | false =>
    unfold checkAndReconnectIfNeeded
    rw [hdb]
    simp only [hp, Bool.false_eq_true, if_false]
    cases hc : Connect b t fuel (pingWorld b w x) dbs with
    | returned r w2 dbs2 => exact Or.inr ⟨_, _, rfl⟩
    | panicked w2 dbs2 => exact absurd hc (Connect_no_panic b t fuel _ dbs w2 dbs2)
    | outOfFuel => exact Or.inl rfl

theorem RegisterFile_of_outOfFuel (b : Backend) (t : Tunables) (fuel : Nat) (w : World)
    (dbs : SDAdb) (p u : String)
    (h : checkAndReconnectIfNeeded b t fuel w dbs = .outOfFuel) :
    RegisterFile b t fuel w dbs p u = .outOfFuel := by
  unfold RegisterFile
  rw [h]

theorem MarkFileAsUploaded_of_outOfFuel (b : Backend) (t : Tunables) (fuel : Nat) (w : World)
    (dbs : SDAdb) (f u m : String)
    (h : checkAndReconnectIfNeeded b t fuel w dbs = .outOfFuel) :
    MarkFileAsUploaded b t fuel w dbs f u m = .outOfFuel := by
  unfold MarkFileAsUploaded
  rw [h]

/-! ## C2 and C3: the schema gate -/

/-- C2. For a supervisor holding a handle with Version < 4 (the unknown -1 included),
once the reconnect step has returned RegisterFile returns the empty file id with the
error "database schema v4 required for RegisterFile()" and MarkFileAsUploaded the
error "database schema v4 required for MarkFileAsUploaded()", in the state that step
left, and neither sends its statement.  The reconnect step returns at once when the
liveness ping succeeds, and otherwise within k + 1 iterations when the (k+1)-th
`sql.Open` from here succeeds: in the first iteration with a driver whose `sql.Open`
does not fail, as the lazily opening lib/pq.  With Version >= 4 neither operation
stops at the version check: each goes on to its statement and returns its answer (or
dereferences the nil handle a failed reconnect left). -/
theorem gate_requires_schema_v4 (b : Backend) (t : Tunables) (fuel : Nat) (w : World)
    (dbs : SDAdb) (x : Nat) (uploadPath uploadUser fileId userId message : String)
    (hdb : dbs.db = some x) :
    (dbs.Version < 4 →
      ((checkAndReconnectIfNeeded b t fuel w dbs = .outOfFuel ∧
          RegisterFile b t fuel w dbs uploadPath uploadUser = .outOfFuel ∧
          MarkFileAsUploaded b t fuel w dbs fileId userId message = .outOfFuel) ∨
        ∃ w1 dbs1, checkAndReconnectIfNeeded b t fuel w dbs = .returned () w1 dbs1 ∧
          RegisterFile b t fuel w dbs uploadPath uploadUser
            = .returned ("", some registerFileGateError) w1 dbs1 ∧
          MarkFileAsUploaded b t fuel w dbs fileId userId message
            = .returned (some markFileGateError) w1 dbs1 ∧
          w1.stmts = w.stmts ∧
          w1.trace.filter Event.isStatement = w.trace.filter Event.isStatement) ∧
      (pingResult b w x = true →
        RegisterFile b t fuel w dbs uploadPath uploadUser
          = .returned ("", some registerFileGateError) (pingWorld b w x) dbs ∧
        MarkFileAsUploaded b t fuel w dbs fileId userId message
          = .returned (some markFileGateError) (pingWorld b w x) dbs) ∧
      (∀ k, b.openErr (w.opens + k) = none → k < fuel →
        ∃ w1 dbs1, RegisterFile b t fuel w dbs uploadPath uploadUser
            = .returned ("", some registerFileGateError) w1 dbs1 ∧
          MarkFileAsUploaded b t fuel w dbs fileId userId message
            = .returned (some markFileGateError) w1 dbs1 ∧
          w1.stmts = w.stmts ∧
          w1.trace.filter Event.isStatement = w.trace.filter Event.isStatement) ∧
      ((∀ n, b.openErr n = none) → 0 < fuel →
        ∃ w1 dbs1, RegisterFile b t fuel w dbs uploadPath uploadUser
            = .returned ("", some registerFileGateError) w1 dbs1 ∧
          MarkFileAsUploaded b t fuel w dbs fileId userId message
            = .returned (some markFileGateError) w1 dbs1 ∧
          w1.stmts = w.stmts ∧
          w1.trace.filter Event.isStatement = w.trace.filter Event.isStatement)) ∧
    (4 ≤ dbs.Version → ∀ w1 dbs1,
      checkAndReconnectIfNeeded b t fuel w dbs = .returned () w1 dbs1 →
      (dbs1.db = none →
        RegisterFile b t fuel w dbs uploadPath uploadUser = .panicked w1 dbs1 ∧
        MarkFileAsUploaded b t fuel w dbs fileId userId message = .panicked w1 dbs1) ∧
      (∀ y, dbs1.db = some y →
        (∀ v w2, dbQueryRow b w1 y registerFileQuery [uploadPath, uploadUser] = (.ok v, w2) →
          RegisterFile b t fuel w dbs uploadPath uploadUser = .returned (v, none) w2 dbs1) ∧
        (∀ e w2,
          dbQueryRow b w1 y registerFileQuery [uploadPath, uploadUser] = (.error e, w2) →
          RegisterFile b t fuel w dbs uploadPath uploadUser
            = .returned ("", some e) w2 dbs1) ∧
        MarkFileAsUploaded b t fuel w dbs fileId userId message
          = .returned (dbExec b w1 y markFileQuery [fileId, userId, message]).1
              (dbExec b w1 y markFileQuery [fileId, userId, message]).2 dbs1 ∧
        (y ∈ w1.live →
          (dbQueryRow b w1 y registerFileQuery [uploadPath, uploadUser]).2.trace
            = w1.trace ++ [Event.queryRow y registerFileQuery [uploadPath, uploadUser]] ∧
          (dbExec b w1 y markFileQuery [fileId, userId, message]).2.trace
            = w1.trace ++ [Event.exec y markFileQuery [fileId, userId, message]]))) := by
  have gate : ∀ w1 dbs1, checkAndReconnectIfNeeded b t fuel w dbs = .returned () w1 dbs1 →
      dbs.Version < 4 →
      RegisterFile b t fuel w dbs uploadPath uploadUser
          = .returned ("", some registerFileGateError) w1 dbs1 ∧
        MarkFileAsUploaded b t fuel w dbs fileId userId message
          = .returned (some markFileGateError) w1 dbs1 ∧
        w1.stmts = w.stmts ∧
        w1.trace.filter Event.isStatement = w.trace.filter Event.isStatement := by
    intro w1 dbs1 h hv
    have hu := (checkAndReconnect_untouched b t fuel w dbs x w1 dbs1 hdb h).1
    obtain ⟨evs, hevs⟩ := hu.calls
    exact ⟨RegisterFile_of_check b t fuel w dbs x _ _ w1 dbs1 hdb hv h,
      MarkFileAsUploaded_of_check b t fuel w dbs x _ _ _ w1 dbs1 hdb hv h, hu.stmts,
      continuesWith_filter_eq hevs⟩
  refine ⟨fun hv => ⟨?_, ?_, ?_, ?_⟩, ?_⟩
  · rcases checkAndReconnect_no_panic b t fuel w dbs x hdb with h | ⟨w1, dbs1, h⟩
    · exact Or.inl ⟨h, RegisterFile_of_outOfFuel b t fuel w dbs _ _ h,
        MarkFileAsUploaded_of_outOfFuel b t fuel w dbs _ _ _ h⟩
    · exact Or.inr ⟨w1, dbs1, h, gate w1 dbs1 h hv⟩
  · intro hp
    have h := checkAndReconnect_of_ping b t fuel w dbs x hdb hp
    exact ⟨(gate _ _ h hv).1, (gate _ _ h hv).2.1⟩
  · intro k hk hfuel
    obtain ⟨w1, dbs1, h⟩ := checkAndReconnect_returns_of_ok b t k fuel w dbs x hdb hk hfuel
    exact ⟨w1, dbs1, gate w1 dbs1 h hv⟩
  · intro hopen hfuel
    obtain ⟨w1, dbs1, h⟩ :=
      checkAndReconnect_returns_of_ok b t 0 fuel w dbs x hdb (hopen _) hfuel
    exact ⟨w1, dbs1, gate w1 dbs1 h hv⟩
  · intro hv w1 dbs1 hc
    have hver := (checkAndReconnect_untouched b t fuel w dbs x w1 dbs1 hdb hc).1.version
    have hnot : ¬ dbs1.Version < 4 := by rw [hver]; omega
    refine ⟨?_, ?_⟩
    · intro hnil
      constructor
      · unfold RegisterFile
        rw [hc]
        simp only [hnot, if_false, hnil]
      · unfold MarkFileAsUploaded
        rw [hc]
        simp only [hnot, if_false, hnil]
    · intro y hy
      refine ⟨?_, ?_, ?_, ?_⟩
      · intro v w2 hq
        unfold RegisterFile
        rw [hc]
        simp only [hnot, if_false, hy, hq]
      · intro e w2 hq
        unfold RegisterFile
        rw [hc]
        simp only [hnot, if_false, hy, hq]
      · unfold MarkFileAsUploaded
        rw [hc]
        simp only [hnot, if_false, hy]
      · intro hlive
        simp [dbQueryRow, dbExec, hlive]

/-- C2 on a healthy connection with the unknown version -1: both operations return
their gate error after the one ping; with version 4 RegisterFile returns the file id
its statement answered and MarkFileAsUploaded the nil error of its insert. -/
theorem gate_requires_schema_v4_witness :
    (RegisterFile backendUp defaultTunables 0 connectedWorld (connectedSDAdb (-1) confDisable)
        "inbox/a.c4gh" "alice"
      = .returned ("", some "database schema v4 required for RegisterFile()")
          (pingWorld backendUp connectedWorld 0) (connectedSDAdb (-1) confDisable) ∧
    MarkFileAsUploaded backendUp defaultTunables 0 connectedWorld
        (connectedSDAdb (-1) confDisable) "f1" "alice" "msg"
      = .returned (some "database schema v4 required for MarkFileAsUploaded()")
          (pingWorld backendUp connectedWorld 0) (connectedSDAdb (-1) confDisable)) ∧
    RegisterFile backendUp defaultTunables 0 connectedWorld (connectedSDAdb 4 confDisable)
        "inbox/a.c4gh" "alice"
      = .returned ("f1", none)
          ⟨0, 1, 1, 1, [0], [Event.ping 0 true,
            Event.queryRow 0 registerFileQuery ["inbox/a.c4gh", "alice"]]⟩
          (connectedSDAdb 4 confDisable) ∧
    MarkFileAsUploaded backendUp defaultTunables 0 connectedWorld
        (connectedSDAdb 4 confDisable) "f1" "alice" "msg"
      = .returned none
          ⟨0, 1, 1, 1, [0], [Event.ping 0 true,
            Event.exec 0 markFileQuery ["f1", "alice", "msg"]]⟩
          (connectedSDAdb 4 confDisable) :=
  ⟨((gate_requires_schema_v4 backendUp defaultTunables 0 connectedWorld
      (connectedSDAdb (-1) confDisable) 0 "inbox/a.c4gh" "alice" "f1" "alice" "msg" rfl).1
      (by decide)).2.1 rfl,
   (((gate_requires_schema_v4 backendUp defaultTunables 0 connectedWorld
      (connectedSDAdb 4 confDisable) 0 "inbox/a.c4gh" "alice" "f1" "alice" "msg" rfl).2
      (by decide) (pingWorld backendUp connectedWorld 0) (connectedSDAdb 4 confDisable)
      rfl).2 0 rfl).1 "f1" _ rfl,
   (((gate_requires_schema_v4 backendUp defaultTunables 0 connectedWorld
      (connectedSDAdb 4 confDisable) 0 "inbox/a.c4gh" "alice" "f1" "alice" "msg" rfl).2
      (by decide) (pingWorld backendUp connectedWorld 0) (connectedSDAdb 4 confDisable)
      rfl).2 0 rfl).2.2.1⟩

/-- The premise on `sql.Open` under which the gated operations are shown to return is
needed in this model: holding a handle with Version -1, on a backend where every ping
and every `sql.Open` fails and with ConnectTimeout = 0 (retry forever), RegisterFile
is still in the reconnect step whatever the fuel. -/
theorem RegisterFile_blocks_while_reconnecting :
    ¬ ∃ fuel r w1 dbs1,
      RegisterFile backendDown foreverTunables fuel connectedWorld
        (connectedSDAdb (-1) confDisable) "inbox/a.c4gh" "alice" = .returned r w1 dbs1 := by
  rintro ⟨fuel, r, w1, dbs1, h⟩
  have hc : checkAndReconnectIfNeeded backendDown foreverTunables fuel connectedWorld
      (connectedSDAdb (-1) confDisable) = .outOfFuel := by
    have hp : pingResult backendDown connectedWorld 0 = false := rfl
    have hl : Connect backendDown foreverTunables fuel (pingWorld backendDown connectedWorld 0)
        (connectedSDAdb (-1) confDisable) = .outOfFuel := by
      rw [Connect_of_noLiveHandle backendDown foreverTunables fuel
        (pingWorld backendDown connectedWorld 0) (connectedSDAdb (-1) confDisable) rfl]
      exact connectLoop_forever _ _ _ _ _ _ _ (by decide) (by intro i _; simp [backendDown])
    unfold checkAndReconnectIfNeeded
    simp only [connectedSDAdb, hp, Bool.false_eq_true, if_false]
    simp only [connectedSDAdb] at hl
    rw [hl]
  rw [RegisterFile_of_outOfFuel _ _ _ _ _ _ _ hc] at h
  cases h

theorem RegisterFile_returned_below_v4 (b : Backend) (t : Tunables) (fuel : Nat) (w : World)
    (dbs : SDAdb) (x : Nat) (p u : String) (r : String × Option String) (w1 : World)
    (dbs1 : SDAdb) (hdb : dbs.db = some x) (hv : dbs.Version < 4)
    (h : RegisterFile b t fuel w dbs p u = .returned r w1 dbs1) :
    r = ("", some registerFileGateError) ∧
    checkAndReconnectIfNeeded b t fuel w dbs = .returned () w1 dbs1 := by
  rcases checkAndReconnect_no_panic b t fuel w dbs x hdb with hc | ⟨w2, dbs2, hc⟩
  · rw [RegisterFile_of_outOfFuel b t fuel w dbs p u hc] at h; cases h
  · rw [RegisterFile_of_check b t fuel w dbs x p u w2 dbs2 hdb hv hc] at h
    cases h
    exact ⟨rfl, hc⟩

theorem MarkFileAsUploaded_returned_below_v4 (b : Backend) (t : Tunables) (fuel : Nat)
    (w : World) (dbs : SDAdb) (x : Nat) (f u m : String) (r : Option String) (w1 : World)
    (dbs1 : SDAdb) (hdb : dbs.db = some x) (hv : dbs.Version < 4)
    (h : MarkFileAsUploaded b t fuel w dbs f u m = .returned r w1 dbs1) :
    r = some markFileGateError ∧
    checkAndReconnectIfNeeded b t fuel w dbs = .returned () w1 dbs1 := by
  rcases checkAndReconnect_no_panic b t fuel w dbs x hdb with hc | ⟨w2, dbs2, hc⟩
  · rw [MarkFileAsUploaded_of_outOfFuel b t fuel w dbs f u m hc] at h; cases h
  · rw [MarkFileAsUploaded_of_check b t fuel w dbs x f u m w2 dbs2 hdb hv hc] at h
    cases h
    exact ⟨rfl, hc⟩

theorem checkAndReconnect_trace (b : Backend) (t : Tunables) (fuel : Nat) (w : World)
    (dbs : SDAdb) (x : Nat) (w1 : World) (dbs1 : SDAdb) (hdb : dbs.db = some x)
    (h : checkAndReconnectIfNeeded b t fuel w dbs = .returned () w1 dbs1) :
    ∃ evs, w1.trace = w.trace ++ Event.ping x (pingResult b w x) :: evs ∧
      ∀ e ∈ evs, Event.isStatement e = false := by
  obtain ⟨evs, h1, h2⟩ := (checkAndReconnect_untouched b t fuel w dbs x w1 dbs1 hdb h).2.1.calls
  refine ⟨evs, ?_, h2⟩
  rw [h1]
  simp [pingWorld]

/-- C3 (amended). For a supervisor holding a handle with Version < 4, a gated operation
that returns gives the required-version error without sending a statement, but not
without a network call: its trace continues with the liveness ping of
checkAndReconnectIfNeeded, which is its only call when that ping succeeds, and
otherwise is followed by the calls of Connect, none of them a statement. -/
theorem gated_operation_pings_first (b : Backend) (t : Tunables) (fuel : Nat) (w : World)
    (dbs : SDAdb) (x : Nat) (uploadPath uploadUser fileId userId message : String)
    (hdb : dbs.db = some x) (hv : dbs.Version < 4) :
    (pingResult b w x = true →
      RegisterFile b t fuel w dbs uploadPath uploadUser
        = .returned ("", some registerFileGateError) (pingWorld b w x) dbs ∧
      MarkFileAsUploaded b t fuel w dbs fileId userId message
        = .returned (some markFileGateError) (pingWorld b w x) dbs ∧
      (pingWorld b w x).trace = w.trace ++ [Event.ping x true]) ∧
    (∀ r w1 dbs1, RegisterFile b t fuel w dbs uploadPath uploadUser = .returned r w1 dbs1 →
      r = ("", some registerFileGateError) ∧
      ∃ evs, w1.trace = w.trace ++ Event.ping x (pingResult b w x) :: evs ∧
        ∀ e ∈ evs, Event.isStatement e = false) ∧
    (∀ r w1 dbs1,
      MarkFileAsUploaded b t fuel w dbs fileId userId message = .returned r w1 dbs1 →
      r = some markFileGateError ∧
      ∃ evs, w1.trace = w.trace ++ Event.ping x (pingResult b w x) :: evs ∧
        ∀ e ∈ evs, Event.isStatement e = false) := by
  refine ⟨?_, ?_, ?_⟩
  · intro hp
    have h := checkAndReconnect_of_ping b t fuel w dbs x hdb hp
    exact ⟨RegisterFile_of_check b t fuel w dbs x _ _ _ _ hdb hv h,
      MarkFileAsUploaded_of_check b t fuel w dbs x _ _ _ _ _ hdb hv h,
      by simp [pingWorld, hp]⟩
  · intro r w1 dbs1 h
    obtain ⟨hr, hc⟩ := RegisterFile_returned_below_v4 b t fuel w dbs x _ _ r w1 dbs1 hdb hv h
    exact ⟨hr, checkAndReconnect_trace b t fuel w dbs x w1 dbs1 hdb hc⟩
  · intro r w1 dbs1 h
    obtain ⟨hr, hc⟩ :=
      MarkFileAsUploaded_returned_below_v4 b t fuel w dbs x _ _ _ r w1 dbs1 hdb hv h
    exact ⟨hr, checkAndReconnect_trace b t fuel w dbs x w1 dbs1 hdb hc⟩

/-- C3 (amended) when the backend is down and the timeout is 10: MarkFileAsUploaded
returns its gate error after two failed pings, four failed opens and four sleeps. -/
theorem gated_operation_pings_first_witness :
    ∃ evs,
      MarkFileAsUploaded backendDown shortTunables 4 connectedWorld
        (connectedSDAdb (-1) confDisable) "f1" "alice" "msg"
        = .returned (some markFileGateError)
            (afterFailures backendDown shortTunables 0 confDisable 4
              (pingWorld backendDown (pingWorld backendDown connectedWorld 0) 0))
            ⟨none, -1, confDisable⟩ ∧
      (afterFailures backendDown shortTunables 0 confDisable 4
          (pingWorld backendDown (pingWorld backendDown connectedWorld 0) 0)).trace
        = connectedWorld.trace ++ Event.ping 0 false :: evs ∧
      evs.length = 9 ∧ ∀ e ∈ evs, Event.isStatement e = false := by
  have hrun : MarkFileAsUploaded backendDown shortTunables 4 connectedWorld
        (connectedSDAdb (-1) confDisable) "f1" "alice" "msg"
        = .returned (some markFileGateError)
            (afterFailures backendDown shortTunables 0 confDisable 4
              (pingWorld backendDown (pingWorld backendDown connectedWorld 0) 0))
            ⟨none, -1, confDisable⟩ := rfl
  obtain ⟨-, evs, h1, h2⟩ :=
    (gated_operation_pings_first backendDown shortTunables 4 connectedWorld
      (connectedSDAdb (-1) confDisable) 0 "inbox/a.c4gh" "alice" "f1" "alice" "msg" rfl
      (by decide)).2.2 _ _ _ hrun
  refine ⟨evs, hrun, h1, ?_, h2⟩
  have hl : (afterFailures backendDown shortTunables 0 confDisable 4
      (pingWorld backendDown (pingWorld backendDown connectedWorld 0) 0)).trace.length = 10 :=
    rfl
  have := congrArg List.length h1
  rw [hl] at this
  simp only [connectedWorld, List.nil_append, List.length_cons] at this
  omega

/-- C3 as stated fails: on a healthy connection with Version -1, RegisterFile returns
the gate error after a liveness ping, which is a round trip to the backend. -/
theorem gated_operation_pings_counterexample :
    (connectedSDAdb (-1) confDisable).Version < 4 ∧
    connectedWorld.trace = [] ∧
    RegisterFile backendUp defaultTunables 0 connectedWorld (connectedSDAdb (-1) confDisable)
        "inbox/a.c4gh" "alice"
      = .returned ("", some registerFileGateError) ⟨0, 1, 1, 0, [0], [Event.ping 0 true]⟩
          (connectedSDAdb (-1) confDisable) ∧
    Event.isBackendCall (Event.ping 0 true) = true :=
  ⟨by decide, rfl, rfl, rfl⟩

/-! ## C5: Close on a supervisor that never connected -/

/-- C5 (the code at the failing input). Close on a supervisor whose handle is nil
calls Ping on the nil pointer and panics, whatever the backend and the other fields. -/
theorem Close_on_nil_handle_panics (b : Backend) (w : World) (v : Int) (c : DBConf) :
    Close b w ⟨none, v, c⟩ = .panicked w ⟨none, v, c⟩ ∧
    Close b freshWorld (freshSDAdb c) = .panicked freshWorld (freshSDAdb c) :=
  ⟨rfl, rfl⟩

/-! ## C6: Connect on a healthy supervisor -/

/-- C6. On a supervisor whose handle exists and answers the liveness ping, Connect
returns success with the supervisor unchanged (handle, Version, Config), after that
ping alone: no attempt to open a handle, no sleep.  Hence when a Connect that
succeeded is followed by another with no failure in between, the second creates no
handle and the two together create at most one. -/
theorem Connect_idempotent_when_healthy (b : Backend) (t : Tunables) :
    (∀ (fuel : Nat) (w : World) (dbs : SDAdb) (x : Nat),
      dbs.db = some x → pingResult b w x = true →
      Connect b t fuel w dbs = .returned none (pingWorld b w x) dbs ∧
      (pingWorld b w x).trace = w.trace ++ [Event.ping x true] ∧
      (pingWorld b w x).opens = w.opens ∧
      openedCount (pingWorld b w x).trace = openedCount w.trace ∧
      sleepCount (pingWorld b w x).trace = sleepCount w.trace ∧
      (pingWorld b w x).live = w.live) ∧
    (∀ (fuel0 fuel : Nat) (w0 w : World) (dbs0 dbs : SDAdb),
      Connect b t fuel0 w0 dbs0 = .returned none w dbs →
      (∀ x, dbs.db = some x → pingResult b w x = true) →
      ∃ x, dbs.db = some x ∧
        Connect b t fuel w dbs = .returned none (pingWorld b w x) dbs ∧
        openedCount (pingWorld b w x).trace = openedCount w.trace ∧
        openedCount (pingWorld b w x).trace ≤ openedCount w0.trace + 1) := by
  have fast : ∀ (fuel : Nat) (w : World) (dbs : SDAdb) (x : Nat),
      dbs.db = some x → pingResult b w x = true →
      Connect b t fuel w dbs = .returned none (pingWorld b w x) dbs := by
    intro fuel w dbs x hdb hp
    unfold Connect
    rw [hdb]
    simp [hp]
  refine ⟨?_, ?_⟩
  · intro fuel w dbs x hdb hp
    refine ⟨fast fuel w dbs x hdb hp, by simp [pingWorld, hp], rfl,
      (pingWorld_untouched b w dbs x).2.1, ?_, rfl⟩
    simp [pingWorld, sleepCount, List.countP_append, List.countP_cons]
  · intro fuel0 fuel w0 w dbs0 dbs h0 hp
    have hu := Connect_untouched b t fuel0 w0 dbs0 none w dbs h0
    obtain ⟨x, hx⟩ := hu.2.2 rfl
    have hcount := (pingWorld_untouched b w dbs x).2.1
    exact ⟨x, hx, fast fuel w dbs x hx (hp x hx), hcount, by rw [hcount]; exact hu.2.1⟩

/-- C6 on the backend that is up: the first Connect of a fresh supervisor opens handle
0, the second returns success after one ping, and one handle has been created. -/
theorem Connect_idempotent_when_healthy_witness :
    Connect backendUp defaultTunables 1 freshWorld (freshSDAdb confDisable)
      = .returned none (sqlOpen backendUp freshWorld "postgres"
          (PgDataSource confDisable).2).2 ⟨some 0, -1, confDisable⟩ ∧
    ∃ x, (⟨some 0, -1, confDisable⟩ : SDAdb).db = some x ∧
      Connect backendUp defaultTunables 0
          (sqlOpen backendUp freshWorld "postgres" (PgDataSource confDisable).2).2
          ⟨some 0, -1, confDisable⟩
        = .returned none
            (pingWorld backendUp
              (sqlOpen backendUp freshWorld "postgres" (PgDataSource confDisable).2).2 x)
            ⟨some 0, -1, confDisable⟩ ∧
      openedCount (pingWorld backendUp
          (sqlOpen backendUp freshWorld "postgres" (PgDataSource confDisable).2).2 x).trace
        = openedCount (sqlOpen backendUp freshWorld "postgres"
            (PgDataSource confDisable).2).2.trace ∧
      openedCount (pingWorld backendUp
          (sqlOpen backendUp freshWorld "postgres" (PgDataSource confDisable).2).2 x).trace
        ≤ openedCount freshWorld.trace + 1 :=
  ⟨rfl, (Connect_idempotent_when_healthy backendUp defaultTunables).2 1 0 freshWorld
    (sqlOpen backendUp freshWorld "postgres" (PgDataSource confDisable).2).2
    (freshSDAdb confDisable) ⟨some 0, -1, confDisable⟩ rfl
    (by intro x hx; cases hx; rfl)⟩

/-! ## C7: Close, repeated -/

theorem Close_of_released (b : Backend) (w : World) (dbs : SDAdb) (x : Nat)
    (hdb : dbs.db = some x) (hx : x ∉ w.live) :
    Close b w dbs = .returned () (pingWorld b w x) dbs ∧
    (pingWorld b w x).trace = w.trace ++ [Event.ping x false] := by
  have hp : pingResult b w x = false := by simp [pingResult, hx]
  unfold Close
  rw [hdb]
  simp [hp, pingWorld]

theorem closeTimes_of_released (b : Backend) (dbs : SDAdb) (x : Nat) (hdb : dbs.db = some x) :
    ∀ (n : Nat) (w : World), x ∉ w.live →
      ∃ wn, closeTimes b n w dbs = .returned () wn dbs ∧ wn.live = w.live ∧
        wn.opens = w.opens ∧ wn.stmts = w.stmts ∧
        wn.trace = w.trace ++ List.replicate n (Event.ping x false) := by
  intro n
  induction n with
  | zero => intro w _; exact ⟨w, rfl, rfl, rfl, rfl, by simp⟩
  | succ n ih =>
    intro w hx
    obtain ⟨hc, htr⟩ := Close_of_released b w dbs x hdb hx
    obtain ⟨wn, h1, h2, h3, h4, h5⟩ := ih (pingWorld b w x) hx
    refine ⟨wn, ?_, h2, h3, h4, ?_⟩
    · simp only [closeTimes, hc]
      exact h1
    · rw [h5, htr, List.replicate_succ]
      simp

theorem Close_returns (b : Backend) (w : World) (dbs : SDAdb) (x : Nat)
    (hdb : dbs.db = some x) :
    (pingResult b w x = true ∧
      Close b w dbs = .returned () (dbClose (pingWorld b w x) x) dbs) ∨
    (pingResult b w x = false ∧ Close b w dbs = .returned () (pingWorld b w x) dbs) := by
  unfold Close
  rw [hdb]
  cases hp : pingResult b w x <;> simp [hp]

theorem closeTimes_returns (b : Backend) (dbs : SDAdb) (x : Nat) (hdb : dbs.db = some x) :
    ∀ (n : Nat) (w : World),
      ∃ wn, closeTimes b n w dbs = .returned () wn dbs ∧
        closeCount wn.trace ≤ closeCount w.trace + 1 ∧
        wn.opens = w.opens ∧ wn.stmts = w.stmts ∧ ∀ y, y ∈ wn.live → y ∈ w.live := by
  intro n
  induction n with
  | zero => intro w; exact ⟨w, rfl, Nat.le_succ _, rfl, rfl, fun _ hy => hy⟩
  | succ n ih =>
    intro w
    rcases Close_returns b w dbs x hdb with ⟨-, hc⟩ | ⟨-, hc⟩
    · have hx : x ∉ (dbClose (pingWorld b w x) x).live := by
        simp [dbClose, List.mem_filter]
      obtain ⟨wn, h1, h2, h3, h4, h5⟩ :=
        closeTimes_of_released b dbs x hdb n (dbClose (pingWorld b w x) x) hx
      refine ⟨wn, ?_, ?_, h3, h4, ?_⟩
      · simp only [closeTimes, hc]
        exact h1
      · rw [h5]
        simp [closeCount, dbClose, pingWorld, List.countP_append, List.countP_cons,
          List.countP_replicate]
      · intro y hy
        rw [h2] at hy
        simp only [dbClose, pingWorld, List.mem_filter] at hy
        exact hy.1
    · obtain ⟨wn, h1, h2, h3, h4, h5⟩ := ih (pingWorld b w x)
      refine ⟨wn, ?_, ?_, h3, h4, h5⟩
      · simp only [closeTimes, hc]
        exact h1
      · have : closeCount (pingWorld b w x).trace = closeCount w.trace := by
          simp [closeCount, pingWorld, List.countP_append, List.countP_cons]
        rw [this] at h2
        exact h2

/-- C7 (amended). For every supervisor holding a handle and every n, n calls of Close
in a row all return, without error or panic, leave the supervisor unchanged and
release the handle at most once.  When the handle is open and answers the liveness
ping of the first call, and n >= 1: the first call releases the handle, the others
only ping the released handle and fail to, so the open handles are as after one Close
and the trace is that of one Close followed by n - 1 failed pings: the handle is
released exactly once, by the first call. -/
theorem Close_idempotent_when_connected (b : Backend) (w : World) (dbs : SDAdb) (x n : Nat)
    (hdb : dbs.db = some x) :
    (∃ wn, closeTimes b n w dbs = .returned () wn dbs ∧
      closeCount wn.trace ≤ closeCount w.trace + 1 ∧
      wn.opens = w.opens ∧ wn.stmts = w.stmts ∧ ∀ y, y ∈ wn.live → y ∈ w.live) ∧
    (x ∈ w.live → b.pingOk w.pings = true → 1 ≤ n →
      Close b w dbs = .returned () (dbClose (pingWorld b w x) x) dbs ∧
      (dbClose (pingWorld b w x) x).trace = w.trace ++ [Event.ping x true, Event.close x] ∧
      ∃ wn, closeTimes b n w dbs = .returned () wn dbs ∧
        wn.live = (dbClose (pingWorld b w x) x).live ∧ x ∉ wn.live ∧
        wn.opens = w.opens ∧ wn.stmts = w.stmts ∧
        wn.trace = (dbClose (pingWorld b w x) x).trace
          ++ List.replicate (n - 1) (Event.ping x false) ∧
        closeCount wn.trace = closeCount w.trace + 1) := by
  refine ⟨closeTimes_returns b dbs x hdb n w, ?_⟩
  intro hlive hping hn
  have hp : pingResult b w x = true := by simp [pingResult, hlive, hping]
  have hc : Close b w dbs = .returned () (dbClose (pingWorld b w x) x) dbs := by
    unfold Close
    rw [hdb]
    simp [hp]
  have hx : x ∉ (dbClose (pingWorld b w x) x).live := by
    simp [dbClose, List.mem_filter]
  have htr : (dbClose (pingWorld b w x) x).trace
      = w.trace ++ [Event.ping x true, Event.close x] := by
    simp [dbClose, pingWorld, hp]
  obtain ⟨m, rfl⟩ : ∃ m, n = m + 1 := ⟨n - 1, by omega⟩
  obtain ⟨wn, h1, h2, h3, h4, h5⟩ :=
    closeTimes_of_released b dbs x hdb m (dbClose (pingWorld b w x) x) hx
  refine ⟨hc, htr, wn, ?_, h2, by rw [h2]; exact hx, h3, h4, by simpa using h5, ?_⟩
  · simp only [closeTimes, hc]
    exact h1
  · rw [h5, htr]
    simp [closeCount, List.countP_append, List.countP_cons, List.countP_replicate]

/-- C7 (amended) with ten further calls, as in TestClose: eleven calls of Close on the
connected supervisor return, leave no handle open and release handle 0 once. -/
theorem Close_idempotent_when_connected_witness :
    ∃ wn, closeTimes backendUp 11 connectedWorld (connectedSDAdb 4 confDisable)
        = .returned () wn (connectedSDAdb 4 confDisable) ∧
      wn.live = [] ∧ closeCount wn.trace = 1 ∧
      wn.trace = [Event.ping 0 true, Event.close 0]
        ++ List.replicate 10 (Event.ping 0 false) := by
  obtain ⟨-, -, wn, h1, h2, -, -, -, h6, h7⟩ :=
    (Close_idempotent_when_connected backendUp connectedWorld (connectedSDAdb 4 confDisable)
      0 11 rfl).2 (by decide) rfl (by decide)
  exact ⟨wn, h1, h2, h7, h6⟩

/-- C7 as stated fails: on a supervisor whose handle 0 is open but does not answer the
first liveness ping, one Close releases nothing and leaves handle 0 open, while two
calls in a row release it in the second call: the state after two calls is not the
state after one, and it is not the first call that releases the handle. -/
theorem Close_idempotent_counterexample :
    (connectedSDAdb 4 confDisable).db = some 0 ∧ 0 ∈ connectedWorld.live ∧
    Close backendBlip connectedWorld (connectedSDAdb 4 confDisable)
      = .returned () ⟨0, 1, 1, 0, [0], [Event.ping 0 false]⟩ (connectedSDAdb 4 confDisable) ∧
    closeTimes backendBlip 2 connectedWorld (connectedSDAdb 4 confDisable)
      = .returned () ⟨0, 1, 2, 0, [], [Event.ping 0 false, Event.ping 0 true, Event.close 0]⟩
          (connectedSDAdb 4 confDisable) :=
  ⟨rfl, by decide, rfl, rfl⟩

/-! ## C9: retrying forever -/

/-- C9. With ConnectTimeout <= 0 and no live handle: if the first k - 1 attempts to
open a handle fail and the k-th succeeds (k >= 1), Connect, given fuel for k
iterations, makes exactly k attempts, sleeps exactly k - 1 times, stores the k-th
handle and returns success, whatever time the calls take; Connect never returns an
error, and after any number of failed attempts it is still running. -/
theorem Connect_retries_forever (b : Backend) (t : Tunables) (w : World) (dbs : SDAdb)
    (hCT : t.ConnectTimeout ≤ 0) (hdead : noLiveHandle b w dbs = true) :
    (∀ k, 1 ≤ k → (∀ i, i + 1 < k → b.openErr (w.opens + i) ≠ none) →
      b.openErr (w.opens + (k - 1)) = none →
      ∀ fuel, k ≤ fuel →
        ∃ w1, Connect b t fuel w dbs
            = .returned none w1 { dbs with db := some (w.opens + (k - 1)) } ∧
          w1.opens = w.opens + k ∧
          sleepCount w1.trace = sleepCount w.trace + (k - 1) ∧
          openedCount w1.trace = openedCount w.trace + 1 ∧
          w1.live = (w.opens + (k - 1)) :: w.live) ∧
    (∀ fuel e w1 dbs1, Connect b t fuel w dbs ≠ .returned (some e) w1 dbs1) ∧
    (∀ fuel, (∀ i, i < fuel → b.openErr (w.opens + i) ≠ none) →
      Connect b t fuel w dbs = .outOfFuel) := by
  have ht : ∀ w', loopTest t w.now w' = true := by
    intro w'; simp [loopTest, hCT]
  have hentry := loopEntry_frame b w dbs
  have hentryO := loopEntry_untouched b w dbs
  refine ⟨?_, ?_, ?_⟩
  · intro k hk hfail hok fuel hfuel
    obtain ⟨m, rfl⟩ : ∃ m, k = m + 1 := ⟨k - 1, by omega⟩
    obtain ⟨f, rfl⟩ : ∃ f, fuel = (f + 1) + m := ⟨fuel - (m + 1), by omega⟩
    simp only [Nat.add_sub_cancel] at hok ⊢
    have hf : ∀ i, i < m → b.openErr ((loopEntry b w dbs).opens + i) ≠ none := by
      intro i hi; rw [hentry.1]; exact hfail i (by omega)
    have hfr := afterFailures_frame b t w.now dbs.Config m (loopEntry b w dbs) hf
    have hcalls := afterFailures_calls b t w.now dbs.Config m (loopEntry b w dbs) hf
    have hopen : b.openErr (afterFailures b t w.now dbs.Config m (loopEntry b w dbs)).opens
        = none := by
      rw [hfr.1, hentry.1]; exact hok
    rw [Connect_of_noLiveHandle b t _ w dbs hdead,
      connectLoop_after b t w.now m (f + 1) (loopEntry b w dbs) dbs _ hf (fun i _ => ht _),
      connectLoop_ok b t w.now f _ _ _ (ht _) hopen]
    have hcfg : (if m = 0 then dbs else { dbs with db := none }).Config = dbs.Config := by
      split <;> rfl
    have hver : (if m = 0 then dbs else { dbs with db := none }).Version = dbs.Version := by
      split <;> rfl
    have hs := sqlOpen_ok_untouched b (afterFailures b t w.now dbs.Config m (loopEntry b w dbs))
      dbs (PgDataSource dbs.Config).1 (PgDataSource dbs.Config).2 hopen none
    rw [hcfg, hver, hfr.1, hentry.1]
    refine ⟨_, rfl, ?_, ?_, ?_, ?_⟩
    · rw [sqlOpen_of_ok b _ _ _ hopen]
      simp only
      rw [hfr.1, hentry.1]
      omega
    · rw [sqlOpen_of_ok b _ _ _ hopen]
      simp only [sleepCount, List.countP_append, List.countP_cons, List.countP_nil]
      have h6 := hfr.2.2.2.2.2.1
      have h7 := hentry.2.2.2.2.1
      simp only [sleepCount] at h6 h7
      rw [h6, h7]
      simp
    · rw [hs.2.1, hcalls.2, hentryO.2]
    · rw [hs.2.2, hfr.1, hfr.2.1, hentry.1, hentry.2.1]
  · intro fuel e w1 dbs1 h
    rw [Connect_of_noLiveHandle b t _ w dbs hdead] at h
    obtain ⟨n, -, -, -, hcase⟩ := connectLoop_returned b t w.now fuel _ dbs _ _ w1 dbs1 h
    rcases hcase with ⟨h1, -⟩ | ⟨-, -, -, h4, -⟩
    · rw [ht] at h1; cases h1
    · cases h4
  · intro fuel hfail
    rw [Connect_of_noLiveHandle b t _ w dbs hdead]
    exact connectLoop_forever b t w.now fuel _ dbs _ hCT
      (by intro i hi; rw [hentry.1]; exact hfail i hi)

/-- C9 on a backend whose third attempt is the first to succeed, each attempt taking
7 time units: three attempts, two sleeps, handle 2 stored, success. -/
theorem Connect_retries_forever_witness :
    ∃ w1, Connect backendSlowStart foreverTunables 3 freshWorld (freshSDAdb confDisable)
        = .returned none w1 ⟨some 2, -1, confDisable⟩ ∧
      w1.opens = 3 ∧ sleepCount w1.trace = 2 ∧ openedCount w1.trace = 1 ∧ w1.live = [2] :=
  (Connect_retries_forever backendSlowStart foreverTunables freshWorld (freshSDAdb confDisable)
    (by decide) rfl).1 3 (by decide)
    (by
      intro i hi
      have : i = 0 ∨ i = 1 := by omega
      rcases this with rfl | rfl <;> simp [backendSlowStart, freshWorld])
    rfl 3 (le_refl _)

/-! ## C10: how long a Connect that times out takes -/

theorem connectLoop_times_out (b : Backend) (t : Tunables) (start : Int)
    (hopen : ∀ n, b.openCost n = 0) (hCT : 0 < t.ConnectTimeout)
    (hF : 0 < t.FastConnectRate) (hS : 0 < t.SlowConnectRate) :
    ∀ (fuel : Nat) (w : World) (dbs : SDAdb) (err : Option String),
      (∀ i, b.openErr (w.opens + i) ≠ none) → err ≠ none →
      (t.ConnectTimeout - (w.now - start)).toNat ≤ fuel →
      w.now - start < t.ConnectTimeout + max t.FastConnectRate t.SlowConnectRate →
      ∃ e w1 dbs1, connectLoop b t start fuel w dbs err = .returned (some e) w1 dbs1 ∧
        t.ConnectTimeout ≤ w1.now - start ∧
        w1.now - start < t.ConnectTimeout + max t.FastConnectRate t.SlowConnectRate := by
  intro fuel
  induction fuel with
  | zero =>
    intro w dbs err _ herr hfuel hbound
    obtain ⟨e, rfl⟩ := Option.ne_none_iff_exists'.mp herr
    have hle : t.ConnectTimeout ≤ w.now - start := by omega
    have ht : loopTest t start w = false := by
      rw [loopTest_of_pos t start w hCT]; simpa using hle
    exact ⟨e, w, dbs, connectLoop_exit b t start 0 w dbs _ ht, hle, hbound⟩
  | succ fuel ih =>
    intro w dbs err hfail herr hfuel hbound
    cases ht : loopTest t start w with
    | false =>
      obtain ⟨e, rfl⟩ := Option.ne_none_iff_exists'.mp herr
      rw [loopTest_of_pos t start w hCT] at ht
      have hle : t.ConnectTimeout ≤ w.now - start := by simpa using ht
      exact ⟨e, w, dbs, connectLoop_exit b t start _ w dbs _
        (by rw [loopTest_of_pos t start w hCT]; simpa using hle), hle, hbound⟩
    | true =>
      have hlt : w.now - start < t.ConnectTimeout := by
        rw [loopTest_of_pos t start w hCT] at ht; simpa using ht
      have h0 : b.openErr w.opens ≠ none := by simpa using hfail 0
      obtain ⟨e, he⟩ := Option.ne_none_iff_exists'.mp h0
      have hw := failedAttempt_of_fail b t start dbs.Config w h0
      rw [connectLoop_fail b t start fuel w dbs err e ht he]
      have hnow : (failedAttempt b t start dbs.Config w).now = w.now +
          (if w.now - start < t.FastConnectTimeout then t.FastConnectRate
            else t.SlowConnectRate) := by
        rw [hw]
        simp only [hopen, Nat.cast_zero, add_zero]
        split <;> simp [max_eq_left, le_of_lt, hF, hS]
      have hr1 : 0 < (if w.now - start < t.FastConnectTimeout then t.FastConnectRate
            else t.SlowConnectRate) := by split <;> assumption
      have hr2 : (if w.now - start < t.FastConnectTimeout then t.FastConnectRate
            else t.SlowConnectRate) ≤ max t.FastConnectRate t.SlowConnectRate := by
        split
        · exact le_max_left _ _
        · exact le_max_right _ _
      apply ih
      · intro i
        rw [hw]
        simpa [Nat.add_assoc, Nat.add_comm 1 i] using hfail (i + 1)
      · simp
      · rw [hnow]; omega
      · rw [hnow]; omega

/-- C10. Over a clock that only sleeps advance (pings and opens take no time), with
ConnectTimeout, FastConnectRate and SlowConnectRate positive, no live handle and every
attempt to open a handle failing, Connect returns (given fuel for ConnectTimeout
iterations) with an error, and the time between its start and its return is at least
ConnectTimeout and less than ConnectTimeout plus the larger of the two rates. -/
theorem Connect_times_out_within_bounds (b : Backend) (t : Tunables) (w : World)
    (dbs : SDAdb) (fuel : Nat)
    (hopen : ∀ n, b.openCost n = 0) (hpingCost : ∀ n, b.pingCost n = 0)
    (hCT : 0 < t.ConnectTimeout) (hF : 0 < t.FastConnectRate) (hS : 0 < t.SlowConnectRate)
    (hdead : noLiveHandle b w dbs = true)
    (hfail : ∀ i, b.openErr (w.opens + i) ≠ none)
    (hfuel : t.ConnectTimeout.toNat ≤ fuel) :
    ∃ e w1 dbs1, Connect b t fuel w dbs = .returned (some e) w1 dbs1 ∧
      t.ConnectTimeout ≤ w1.now - w.now ∧
      w1.now - w.now < t.ConnectTimeout + max t.FastConnectRate t.SlowConnectRate := by
  have hnow : (loopEntry b w dbs).now = w.now := by
    unfold loopEntry
    cases dbs.db with
    | none => rfl
    | some x => simp [pingWorld, hpingCost]
  have hmax : 0 < max t.FastConnectRate t.SlowConnectRate := lt_max_of_lt_left hF
  rw [Connect_of_noLiveHandle b t fuel w dbs hdead]
  exact connectLoop_times_out b t w.now hopen hCT hF hS fuel (loopEntry b w dbs) dbs _
    (by intro i; rw [(loopEntry_frame b w dbs).1]; exact hfail i) (by simp)
    (by rw [hnow]; simpa using hfuel) (by rw [hnow]; omega)

/-- C10 on the backend that is down, with timeout 10, fast window 4 and rates 2 and 3:
Connect returns with an error after 10 time units, within [10, 10 + 3). -/
theorem Connect_times_out_within_bounds_witness :
    ∃ e w1 dbs1, Connect backendDown shortTunables 10 freshWorld (freshSDAdb confDisable)
        = .returned (some e) w1 dbs1 ∧
      (10 : Int) ≤ w1.now - 0 ∧ w1.now - 0 < 10 + max 2 3 :=
  Connect_times_out_within_bounds backendDown shortTunables freshWorld
    (freshSDAdb confDisable) 10 (fun _ => rfl) (fun _ => rfl) (by decide) (by decide)
    (by decide) rfl (by intro i; simp [backendDown]) (by decide)

/-! ## C8: how many handles are open -/

theorem onlyCurrentLive_noLive (b : Backend) (w : World) (dbs : SDAdb)
    (hping : ∀ n, b.pingOk n = true) (hinv : OnlyCurrentLive w dbs)
    (hdead : noLiveHandle b w dbs = true) : w.live = [] := by
  rcases hinv with h | ⟨x, hx, hl⟩
  · exact h
  · unfold noLiveHandle at hdead
    rw [hx] at hdead
    simp [pingResult, hl, hping] at hdead

theorem Connect_keeps_onlyCurrentLive (b : Backend) (t : Tunables) (fuel : Nat) (w : World)
    (dbs : SDAdb) (r : Option String) (w1 : World) (dbs1 : SDAdb)
    (hping : ∀ n, b.pingOk n = true) (hinv : OnlyCurrentLive w dbs)
    (h : Connect b t fuel w dbs = .returned r w1 dbs1) : OnlyCurrentLive w1 dbs1 := by
  rcases Connect_returned b t fuel w dbs r w1 dbs1 h with
    ⟨x, -, -, -, hw, hd⟩ | ⟨hdead, hloop⟩
  · rw [hw, hd]
    exact hinv
  · have hnil := onlyCurrentLive_noLive b w dbs hping hinv hdead
    have hl := (connectLoop_untouched b t w.now fuel _ dbs _ r w1 dbs1 hloop).2.2
    rw [(loopEntry_frame b w dbs).2.1, hnil] at hl
    rcases hl with ⟨h1, -, -⟩ | ⟨-, x, hx, h2, -⟩
    · exact Or.inl h1
    · exact Or.inr ⟨x, hx, h2⟩

theorem check_keeps_onlyCurrentLive (b : Backend) (t : Tunables) (fuel : Nat) (w : World)
    (dbs : SDAdb) (w1 : World) (dbs1 : SDAdb)
    (hping : ∀ n, b.pingOk n = true) (hinv : OnlyCurrentLive w dbs)
    (h : checkAndReconnectIfNeeded b t fuel w dbs = .returned () w1 dbs1) :
    OnlyCurrentLive w1 dbs1 := by
  cases hdb : dbs.db with
  | none =>
    unfold checkAndReconnectIfNeeded at h
    rw [hdb] at h
    cases h
  | some x =>
    rcases checkAndReconnect_returned b t fuel w dbs x w1 dbs1 hdb h with
      ⟨-, hw, hd⟩ | ⟨-, r, hc⟩
    · rw [hw, hd]; exact hinv
    · exact Connect_keeps_onlyCurrentLive b t fuel (pingWorld b w x) dbs r w1 dbs1 hping
        hinv hc

theorem RegisterFile_keeps_onlyCurrentLive (b : Backend) (t : Tunables) (fuel : Nat)
    (w : World) (dbs : SDAdb) (p u : String) (r : String × Option String) (w1 : World)
    (dbs1 : SDAdb) (hping : ∀ n, b.pingOk n = true) (hinv : OnlyCurrentLive w dbs)
    (h : RegisterFile b t fuel w dbs p u = .returned r w1 dbs1) :
    OnlyCurrentLive w1 dbs1 := by
  unfold RegisterFile at h
  cases hc : checkAndReconnectIfNeeded b t fuel w dbs with
  | outOfFuel => rw [hc] at h; cases h
  | panicked w2 dbs2 => rw [hc] at h; cases h
  | returned v w2 dbs2 =>
    have hinv2 := check_keeps_onlyCurrentLive b t fuel w dbs w2 dbs2 hping hinv hc
    rw [hc] at h
    simp only at h
    split at h
    · cases h; exact hinv2
    · cases hy : dbs2.db with
      | none => rw [hy] at h; cases h
      | some y =>
        rw [hy] at h
        simp only at h
        have hlive : (dbQueryRow b w2 y registerFileQuery [p, u]).2.live = w2.live := by
          unfold dbQueryRow; split <;> rfl
        cases hq : dbQueryRow b w2 y registerFileQuery [p, u] with
        | mk res wq =>
          rw [hq] at h hlive
          simp only at hlive
          cases res with
          | ok v2 =>
            simp only at h; cases h
            unfold OnlyCurrentLive at hinv2 ⊢
            rw [hlive]; exact hinv2
          | error e =>
            simp only at h; cases h
            unfold OnlyCurrentLive at hinv2 ⊢
            rw [hlive]; exact hinv2

theorem MarkFileAsUploaded_keeps_onlyCurrentLive (b : Backend) (t : Tunables) (fuel : Nat)
    (w : World) (dbs : SDAdb) (f u m : String) (r : Option String) (w1 : World)
    (dbs1 : SDAdb) (hping : ∀ n, b.pingOk n = true) (hinv : OnlyCurrentLive w dbs)
    (h : MarkFileAsUploaded b t fuel w dbs f u m = .returned r w1 dbs1) :
    OnlyCurrentLive w1 dbs1 := by
  unfold MarkFileAsUploaded at h
  cases hc : checkAndReconnectIfNeeded b t fuel w dbs with
  | outOfFuel => rw [hc] at h; cases h
  | panicked w2 dbs2 => rw [hc] at h; cases h
  | returned v w2 dbs2 =>
    have hinv2 := check_keeps_onlyCurrentLive b t fuel w dbs w2 dbs2 hping hinv hc
    rw [hc] at h
    simp only at h
    split at h
    · cases h; exact hinv2
    · cases hy : dbs2.db with
      | none => rw [hy] at h; cases h
      | some y =>
        rw [hy] at h
        simp only at h
        have hlive : (dbExec b w2 y markFileQuery [f, u, m]).2.live = w2.live := by
          unfold dbExec; split <;> rfl
        cases h
        unfold OnlyCurrentLive at hinv2 ⊢
        rw [hlive]; exact hinv2

theorem Close_keeps_onlyCurrentLive (b : Backend) (w : World) (dbs : SDAdb) (w1 : World)
    (dbs1 : SDAdb) (hinv : OnlyCurrentLive w dbs)
    (h : Close b w dbs = .returned () w1 dbs1) : OnlyCurrentLive w1 dbs1 := by
  unfold Close at h
  cases hdb : dbs.db with
  | none => rw [hdb] at h; cases h
  | some x =>
    rw [hdb] at h
    simp only at h
    split at h
    · cases h
      left
      rcases hinv with hl | ⟨y, hy, hl⟩
      · simp [dbClose, pingWorld, hl]
      · rw [hdb] at hy
        cases hy
        simp [dbClose, pingWorld, hl]
    · cases h
      exact hinv

/-- The handles open after a Connect that returns: those open before, and in front of
them the new handle when one was opened and stored. -/
theorem Connect_live (b : Backend) (t : Tunables) (fuel : Nat) (w : World) (dbs : SDAdb)
    (r : Option String) (w1 : World) (dbs1 : SDAdb)
    (h : Connect b t fuel w dbs = .returned r w1 dbs1) :
    (w1.live = w.live ∧
      ((∃ x, dbs.db = some x ∧ pingResult b w x = true) ∨ r ≠ none)) ∨
    (r = none ∧ ∃ y, dbs1.db = some y ∧ w1.live = y :: w.live) := by
  rcases Connect_returned b t fuel w dbs r w1 dbs1 h with
    ⟨x, hx, hp, -, hw, -⟩ | ⟨-, hloop⟩
  · left
    rw [hw]
    exact ⟨rfl, Or.inl ⟨x, hx, hp⟩⟩
  · have hl := (connectLoop_untouched b t w.now fuel _ dbs _ r w1 dbs1 hloop).2.2
    rw [(loopEntry_frame b w dbs).2.1] at hl
    rcases hl with ⟨h1, -, h3⟩ | ⟨h1, y, hy, h2, -⟩
    · exact Or.inl ⟨h1, Or.inr (h3 (by simp))⟩
    · exact Or.inr ⟨h1, y, hy, h2⟩

/-- C8 (amended). Provided no liveness ping of an open handle fails (pings fail only
on released handles), in every state reachable from a fresh supervisor by Connect,
checkAndReconnectIfNeeded, RegisterFile, MarkFileAsUploaded and Close at most one
handle is open, and it is the one the supervisor holds.  In every state, reachable or
not and whatever the pings answer, Connect releases nothing: it calls no Close, and
the handles open after it are those open before it, preceded by the new handle when it
stored one; so when it stores a new handle in place of an open one whose ping failed,
the old one stays open and two handles are open. -/
theorem at_most_one_live_handle (b : Backend) (t : Tunables) :
    ((∀ n, b.pingOk n = true) → ∀ w dbs, Reachable b t w dbs →
      w.live.length ≤ 1 ∧ ∀ x, x ∈ w.live → dbs.db = some x) ∧
    (∀ fuel w dbs r w1 dbs1, Connect b t fuel w dbs = .returned r w1 dbs1 →
      closeCount w1.trace = closeCount w.trace ∧
      (w1.live = w.live ∨ ∃ y, dbs1.db = some y ∧ w1.live = y :: w.live)) ∧
    (∀ fuel w dbs x w1 dbs1, dbs.db = some x → x ∈ w.live → pingResult b w x = false →
      Connect b t fuel w dbs = .returned none w1 dbs1 →
      ∃ y, dbs1.db = some y ∧ w1.live = y :: w.live ∧ x ∈ w1.live ∧
        2 ≤ w1.live.length ∧ closeCount w1.trace = closeCount w.trace) := by
  refine ⟨?_, ?_, ?_⟩
  · intro hping w dbs hr
    have hinv : OnlyCurrentLive w dbs := by
      induction hr with
      | fresh w dbs hl _ => exact Or.inl hl
      | connect w dbs fuel r w1 dbs1 _ h ih =>
        exact Connect_keeps_onlyCurrentLive b t fuel w dbs r w1 dbs1 hping ih h
      | check w dbs fuel w1 dbs1 _ h ih =>
        exact check_keeps_onlyCurrentLive b t fuel w dbs w1 dbs1 hping ih h
      | register w dbs fuel p u r w1 dbs1 _ h ih =>
        exact RegisterFile_keeps_onlyCurrentLive b t fuel w dbs p u r w1 dbs1 hping ih h
      | mark w dbs fuel f u m r w1 dbs1 _ h ih =>
        exact MarkFileAsUploaded_keeps_onlyCurrentLive b t fuel w dbs f u m r w1 dbs1 hping
          ih h
      | close w dbs w1 dbs1 _ h ih => exact Close_keeps_onlyCurrentLive b w dbs w1 dbs1 ih h
    rcases hinv with hl | ⟨x, hx, hl⟩
    · simp [hl]
    · rw [hl]
      refine ⟨by simp, ?_⟩
      intro y hy
      simp only [List.mem_singleton] at hy
      rw [hy]; exact hx
  · intro fuel w dbs r w1 dbs1 h
    have hu := (Connect_untouched b t fuel w dbs r w1 dbs1 h).1
    refine ⟨hu.closes, ?_⟩
    rcases Connect_live b t fuel w dbs r w1 dbs1 h with ⟨h1, -⟩ | ⟨-, y, hy, h2⟩
    · exact Or.inl h1
    · exact Or.inr ⟨y, hy, h2⟩
  · intro fuel w dbs x w1 dbs1 hdb hx hp h
    have hu := (Connect_untouched b t fuel w dbs none w1 dbs1 h).1
    rcases Connect_live b t fuel w dbs none w1 dbs1 h with ⟨-, h2⟩ | ⟨-, y, hy, h2⟩
    · rcases h2 with ⟨x', hx', hp'⟩ | h2
      · rw [hdb] at hx'
        cases hx'
        rw [hp] at hp'
        cases hp'
      · exact absurd rfl h2
    · refine ⟨y, hy, h2, ?_, ?_, hu.closes⟩
      · rw [h2]; exact List.mem_cons_of_mem _ hx
      · rw [h2]
        have := List.length_pos_of_mem hx
        simp only [List.length_cons]
        omega

/-- C8 (amended), twice.  On the backend that is up, after Connect, Close and Connect
again the one open handle is handle 1, which the supervisor holds.  On the backend
where the first ping of the open handle 0 fails, the Connect that stores handle 1
leaves handle 0 open as well. -/
theorem at_most_one_live_handle_witness :
    (∃ w dbs, Reachable backendUp defaultTunables w dbs ∧ w.live = [1] ∧ dbs.db = some 1 ∧
      w.live.length ≤ 1 ∧ ∀ x, x ∈ w.live → dbs.db = some x) ∧
    (∃ y w1 dbs1, Connect backendBlip defaultTunables 1 connectedWorld
        (connectedSDAdb 4 confDisable) = .returned none w1 dbs1 ∧
      dbs1.db = some y ∧ w1.live = y :: connectedWorld.live ∧ 0 ∈ w1.live ∧
      2 ≤ w1.live.length ∧ closeCount w1.trace = closeCount connectedWorld.trace) := by
  constructor
  · have h1 : Connect backendUp defaultTunables 1 freshWorld (freshSDAdb confDisable)
        = .returned none ⟨0, 1, 0, 0, [0], [Event.sqlOpen "postgres"
            (PgDataSource confDisable).2 true]⟩ ⟨some 0, -1, confDisable⟩ := rfl
    have h2 : Close backendUp ⟨0, 1, 0, 0, [0], [Event.sqlOpen "postgres"
            (PgDataSource confDisable).2 true]⟩ ⟨some 0, -1, confDisable⟩
        = .returned () ⟨0, 1, 1, 0, [], [Event.sqlOpen "postgres"
            (PgDataSource confDisable).2 true, Event.ping 0 true, Event.close 0]⟩
            ⟨some 0, -1, confDisable⟩ := rfl
    have h3 : Connect backendUp defaultTunables 1 ⟨0, 1, 1, 0, [], [Event.sqlOpen "postgres"
            (PgDataSource confDisable).2 true, Event.ping 0 true, Event.close 0]⟩
            ⟨some 0, -1, confDisable⟩
        = .returned none ⟨0, 2, 2, 0, [1], [Event.sqlOpen "postgres"
            (PgDataSource confDisable).2 true, Event.ping 0 true, Event.close 0,
            Event.ping 0 false, Event.sqlOpen "postgres" (PgDataSource confDisable).2 true]⟩
            ⟨some 1, -1, confDisable⟩ := rfl
    have hr := Reachable.connect _ _ _ _ _ _
      (Reachable.close _ _ _ _
        (Reachable.connect _ _ _ _ _ _
          (Reachable.fresh freshWorld (freshSDAdb confDisable) rfl rfl) h1) h2) h3
    have := (at_most_one_live_handle backendUp defaultTunables).1 (fun _ => rfl) _ _ hr
    exact ⟨_, _, hr, rfl, rfl, this.1, this.2⟩
  · have h : Connect backendBlip defaultTunables 1 connectedWorld
        (connectedSDAdb 4 confDisable)
        = .returned none ⟨0, 2, 1, 0, [1, 0], [Event.ping 0 false,
            Event.sqlOpen "postgres" (PgDataSource confDisable).2 true]⟩
            ⟨some 1, 4, confDisable⟩ := rfl
    obtain ⟨y, h1, h2, h3, h4, h5⟩ :=
      (at_most_one_live_handle backendBlip defaultTunables).2.2 1 connectedWorld
        (connectedSDAdb 4 confDisable) 0 _ _ rfl (by decide) rfl h
    exact ⟨y, _, _, h, h1, h2, h3, h4, h5⟩

/-- C8 as stated fails: on a backend where one ping of the open handle 0 fails,
Connect, called twice on a fresh supervisor, stores handle 1 over handle 0 without
releasing it; the state reached has two open handles and no Close was ever called. -/
theorem at_most_one_live_handle_counterexample :
    ∃ w dbs, Reachable backendBlip defaultTunables w dbs ∧ w.live = [1, 0] ∧
      dbs.db = some 1 ∧ closeCount w.trace = 0 ∧ ¬ w.live.length ≤ 1 := by
  have h1 : Connect backendBlip defaultTunables 1 freshWorld (freshSDAdb confDisable)
      = .returned none ⟨0, 1, 0, 0, [0], [Event.sqlOpen "postgres"
          (PgDataSource confDisable).2 true]⟩ ⟨some 0, -1, confDisable⟩ := rfl
  have h2 : Connect backendBlip defaultTunables 1 ⟨0, 1, 0, 0, [0], [Event.sqlOpen "postgres"
          (PgDataSource confDisable).2 true]⟩ ⟨some 0, -1, confDisable⟩
      = .returned none ⟨0, 2, 1, 0, [1, 0], [Event.sqlOpen "postgres"
          (PgDataSource confDisable).2 true, Event.ping 0 false,
          Event.sqlOpen "postgres" (PgDataSource confDisable).2 true]⟩
          ⟨some 1, -1, confDisable⟩ := rfl
  exact ⟨_, _, Reachable.connect _ _ _ _ _ _
      (Reachable.connect _ _ _ _ _ _
        (Reachable.fresh freshWorld (freshSDAdb confDisable) rfl rfl) h1) h2,
    rfl, rfl, rfl, by decide⟩

/-! ## C11: the two-tier backoff -/

theorem afterFailures_succ (b : Backend) (t : Tunables) (start : Int) (c : DBConf) :
    ∀ (i : Nat) (w : World),
      afterFailures b t start c (i + 1) w
        = failedAttempt b t start c (afterFailures b t start c i w) := by
  intro i
  induction i with
  | zero => intro w; rfl
  | succ i ih =>
    intro w
    show afterFailures b t start c (i + 1) (failedAttempt b t start c w) = _
    rw [ih]
    rfl

theorem afterFailures_opens (b : Backend) (t : Tunables) (start : Int) (c : DBConf)
    (n i : Nat) (w : World) (hf : ∀ k, k < n → b.openErr (w.opens + k) ≠ none)
    (hi : i ≤ n) : (afterFailures b t start c i w).opens = w.opens + i :=
  (afterFailures_frame b t start c i w (fun k hk => hf k (by omega))).1

theorem afterFailures_step (b : Backend) (t : Tunables) (start : Int) (c : DBConf)
    (n i : Nat) (w : World) (hf : ∀ k, k < n → b.openErr (w.opens + k) ≠ none)
    (hi : i < n) :
    (afterFailures b t start c (i + 1) w).trace
      = (afterFailures b t start c i w).trace ++
          [Event.sqlOpen (PgDataSource c).1 (PgDataSource c).2 false,
           Event.sleep (backoffRate t (elapsedAtChoice b t start c i w))] ∧
    (afterFailures b t start c (i + 1) w).now
      = (afterFailures b t start c i w).now + b.openCost (afterFailures b t start c i w).opens
          + max (backoffRate t (elapsedAtChoice b t start c i w)) 0 := by
  have hop := afterFailures_opens b t start c n i w hf (le_of_lt hi)
  have hne : b.openErr (afterFailures b t start c i w).opens ≠ none := by
    rw [hop]; exact hf i hi
  rw [afterFailures_succ,
    failedAttempt_of_fail b t start c (afterFailures b t start c i w) hne]
  exact ⟨rfl, rfl⟩

theorem afterFailures_now_mono (b : Backend) (t : Tunables) (start : Int) (c : DBConf)
    (n : Nat) (w : World) (hf : ∀ k, k < n → b.openErr (w.opens + k) ≠ none) :
    ∀ (d i : Nat), i + d ≤ n →
      (afterFailures b t start c i w).now ≤ (afterFailures b t start c (i + d) w).now := by
  intro d
  induction d with
  | zero => intro i _; exact le_refl _
  | succ d ih =>
    intro i hid
    have h1 := ih i (by omega)
    have h2 := (afterFailures_step b t start c n (i + d) w hf (by omega)).2
    have h3 : (0 : Int) ≤ b.openCost (afterFailures b t start c (i + d) w).opens :=
      Int.ofNat_nonneg _
    have h4 := le_max_right (backoffRate t (elapsedAtChoice b t start c (i + d) w)) (0 : Int)
    show _ ≤ (afterFailures b t start c (i + d + 1) w).now
    rw [h2]
    omega

theorem afterFailures_backoff (b : Backend) (t : Tunables) (start : Int) (c : DBConf) :
    ∀ (n : Nat) (w : World), (∀ i, i < n → b.openErr (w.opens + i) ≠ none) →
      (afterFailures b t start c n w).now = backoffClock b t start n w.now w.opens ∧
      (afterFailures b t start c n w).trace
        = w.trace ++ backoffEvents b t start c n w.now w.opens := by
  intro n
  induction n with
  | zero => intro w _; simp [afterFailures, backoffClock, backoffEvents]
  | succ n ih =>
    intro w hf
    have h0 : b.openErr w.opens ≠ none := by simpa using hf 0 (Nat.succ_pos n)
    have hw := failedAttempt_of_fail b t start c w h0
    obtain ⟨ih1, ih2⟩ := ih (failedAttempt b t start c w) (by
      intro i hi
      rw [hw]
      have := hf (i + 1) (Nat.succ_lt_succ hi)
      simpa [Nat.add_assoc, Nat.add_comm 1 i] using this)
    simp only [afterFailures]
    rw [ih1, ih2, hw]
    simp [backoffClock, backoffEvents, backoffRate]

theorem backoffEvents_length (b : Backend) (t : Tunables) (start : Int) (c : DBConf) :
    ∀ (n : Nat) (now : Int) (opens : Nat),
      (backoffEvents b t start c n now opens).length = 2 * n := by
  intro n
  induction n with
  | zero => intro _ _; rfl
  | succ n ih =>
    intro now opens
    simp only [backoffEvents, List.length_cons, ih]
    omega

theorem backoffEvents_at (b : Backend) (t : Tunables) (start : Int) (c : DBConf) :
    ∀ (n j : Nat) (now : Int) (opens : Nat), j < n →
      (backoffEvents b t start c n now opens)[2 * j]?
        = some (Event.sqlOpen (PgDataSource c).1 (PgDataSource c).2 false) ∧
      (backoffEvents b t start c n now opens)[2 * j + 1]?
        = some (Event.sleep (backoffRate t
            (backoffClock b t start j now opens + b.openCost (opens + j) - start))) := by
  intro n
  induction n with
  | zero => intro j _ _ hj; omega
  | succ n ih =>
    intro j now opens hj
    cases j with
    | zero => simp [backoffEvents, backoffClock]
    | succ j =>
      obtain ⟨h1, h2⟩ := ih j
        (now + b.openCost opens + max (backoffRate t (now + b.openCost opens - start)) 0)
        (opens + 1) (by omega)
      have e1 : 2 * (j + 1) = 2 * j + 1 + 1 := by omega
      have e2 : opens + 1 + j = opens + (j + 1) := by omega
      refine ⟨?_, ?_⟩
      · rw [e1]
        simpa [backoffEvents] using h1
      · rw [e1]
        simp only [backoffEvents, List.getElem?_cons_succ, backoffClock]
        rw [h2, e2]

theorem backoffClock_add (b : Backend) (t : Tunables) (start : Int) :
    ∀ (i d : Nat) (now : Int) (opens : Nat),
      backoffClock b t start (i + d) now opens
        = backoffClock b t start d (backoffClock b t start i now opens) (opens + i) := by
  intro i
  induction i with
  | zero => intro d now opens; simp [backoffClock]
  | succ i ih =>
    intro d now opens
    have e : i + 1 + d = (i + d) + 1 := by omega
    have e2 : opens + 1 + i = opens + (i + 1) := by omega
    rw [e]
    simp only [backoffClock]
    rw [ih, e2]

theorem backoffClock_le (b : Backend) (t : Tunables) (start : Int) :
    ∀ (d : Nat) (now : Int) (opens : Nat), now ≤ backoffClock b t start d now opens := by
  intro d
  induction d with
  | zero => intro now opens; exact le_refl _
  | succ d ih =>
    intro now opens
    have h1 := ih
      (now + b.openCost opens + max (backoffRate t (now + b.openCost opens - start)) 0)
      (opens + 1)
    have h2 : (0 : Int) ≤ b.openCost opens := Int.ofNat_nonneg _
    have h3 := le_max_right (backoffRate t (now + b.openCost opens - start)) (0 : Int)
    simp only [backoffClock]
    omega

theorem loopTest_iff (t : Tunables) (start : Int) (w : World) :
    loopTest t start w = true ↔ (t.ConnectTimeout ≤ 0 ∨ w.now - start < t.ConnectTimeout) := by
  simp [loopTest]

/-- C11. In a Connect call on a supervisor with no live handle whose first n attempts
to open a handle are made and fail, what Connect has done when it returns is, after
its liveness ping, exactly n times a failed `sql.Open` followed by one sleep, and then
the successful `sql.Open` if that is how it returns: it returns success when the next
attempt is made and succeeds, and an error when the timeout has elapsed instead.  The
sleep after the (j+1)-th failed attempt is for FastConnectRate when the time elapsed
since Connect started, read after that attempt, is less than FastConnectTimeout, and
for SlowConnectRate otherwise; once the elapsed time has reached FastConnectTimeout,
at a loop test or after an attempt, every later sleep is for SlowConnectRate. -/
theorem Connect_two_tier_backoff (b : Backend) (t : Tunables) (w : World) (dbs : SDAdb)
    (n : Nat) (hdead : noLiveHandle b w dbs = true)
    (hfail : ∀ i, i < n → b.openErr (w.opens + i) ≠ none)
    (hrun : ∀ i, i < n → t.ConnectTimeout ≤ 0 ∨
      backoffClock b t w.now i (loopEntry b w dbs).now w.opens - w.now < t.ConnectTimeout) :
    ((t.ConnectTimeout ≤ 0 ∨
        backoffClock b t w.now n (loopEntry b w dbs).now w.opens - w.now < t.ConnectTimeout) →
      b.openErr (w.opens + n) = none → ∀ fuel, n < fuel →
      ∃ w1, Connect b t fuel w dbs = .returned none w1 { dbs with db := some (w.opens + n) } ∧
        w1.trace = (loopEntry b w dbs).trace
          ++ backoffEvents b t w.now dbs.Config n (loopEntry b w dbs).now w.opens
          ++ [Event.sqlOpen (PgDataSource dbs.Config).1 (PgDataSource dbs.Config).2 true]) ∧
    (0 < t.ConnectTimeout →
      t.ConnectTimeout ≤ backoffClock b t w.now n (loopEntry b w dbs).now w.opens - w.now →
      ∀ fuel, n ≤ fuel →
      ∃ e w1 dbs1, Connect b t fuel w dbs = .returned (some e) w1 dbs1 ∧
        w1.trace = (loopEntry b w dbs).trace
          ++ backoffEvents b t w.now dbs.Config n (loopEntry b w dbs).now w.opens ∧
        w1.now = backoffClock b t w.now n (loopEntry b w dbs).now w.opens) ∧
    (backoffEvents b t w.now dbs.Config n (loopEntry b w dbs).now w.opens).length = 2 * n ∧
    (∀ j, j < n →
      (backoffEvents b t w.now dbs.Config n (loopEntry b w dbs).now w.opens)[2 * j]?
        = some (Event.sqlOpen (PgDataSource dbs.Config).1 (PgDataSource dbs.Config).2 false) ∧
      (backoffEvents b t w.now dbs.Config n (loopEntry b w dbs).now w.opens)[2 * j + 1]?
        = some (Event.sleep
            (if backoffClock b t w.now j (loopEntry b w dbs).now w.opens
                  + b.openCost (w.opens + j) - w.now < t.FastConnectTimeout
              then t.FastConnectRate else t.SlowConnectRate))) ∧
    (∀ i j, i ≤ j → j < n →
      (t.FastConnectTimeout
          ≤ backoffClock b t w.now i (loopEntry b w dbs).now w.opens - w.now ∨
        t.FastConnectTimeout
          ≤ backoffClock b t w.now i (loopEntry b w dbs).now w.opens
              + b.openCost (w.opens + i) - w.now) →
      (backoffEvents b t w.now dbs.Config n (loopEntry b w dbs).now w.opens)[2 * j + 1]?
        = some (Event.sleep t.SlowConnectRate)) := by
  have hentry := loopEntry_frame b w dbs
  have hf : ∀ i, i < n → b.openErr ((loopEntry b w dbs).opens + i) ≠ none := by
    intro i hi; rw [hentry.1]; exact hfail i hi
  have hlink : ∀ i, i ≤ n →
      (afterFailures b t w.now dbs.Config i (loopEntry b w dbs)).now
        = backoffClock b t w.now i (loopEntry b w dbs).now w.opens ∧
      (afterFailures b t w.now dbs.Config i (loopEntry b w dbs)).trace
        = (loopEntry b w dbs).trace
          ++ backoffEvents b t w.now dbs.Config i (loopEntry b w dbs).now w.opens := by
    intro i hi
    have := afterFailures_backoff b t w.now dbs.Config i (loopEntry b w dbs)
      (fun k hk => hf k (by omega))
    rw [hentry.1] at this
    exact this
  have ht : ∀ i, i < n →
      loopTest t w.now (afterFailures b t w.now dbs.Config i (loopEntry b w dbs)) = true := by
    intro i hi
    rw [loopTest_iff, (hlink i (le_of_lt hi)).1]
    exact hrun i hi
  have hfr := afterFailures_frame b t w.now dbs.Config n (loopEntry b w dbs) hf
  have hcfg : (if n = 0 then dbs else { dbs with db := none }).Config = dbs.Config := by
    split <;> rfl
  have hver : (if n = 0 then dbs else { dbs with db := none }).Version = dbs.Version := by
    split <;> rfl
  refine ⟨?_, ?_, backoffEvents_length b t w.now dbs.Config n _ _, ?_, ?_⟩
  · intro htest hok fuel hfuel
    obtain ⟨f, rfl⟩ : ∃ f, fuel = (f + 1) + n := ⟨fuel - (n + 1), by omega⟩
    have htn : loopTest t w.now (afterFailures b t w.now dbs.Config n (loopEntry b w dbs))
        = true := by
      rw [loopTest_iff, (hlink n (le_refl _)).1]; exact htest
    have hopen : b.openErr (afterFailures b t w.now dbs.Config n (loopEntry b w dbs)).opens
        = none := by
      rw [hfr.1, hentry.1]; exact hok
    rw [Connect_of_noLiveHandle b t _ w dbs hdead,
      connectLoop_after b t w.now n (f + 1) (loopEntry b w dbs) dbs _ hf ht,
      connectLoop_ok b t w.now f _ _ _ htn hopen, hcfg, hver, hfr.1, hentry.1]
    refine ⟨_, rfl, ?_⟩
    rw [sqlOpen_of_ok b _ _ _ hopen]
    simp only
    rw [(hlink n (le_refl _)).2]
  · intro hCT hout fuel hfuel
    obtain ⟨f, rfl⟩ : ∃ f, fuel = f + n := ⟨fuel - n, by omega⟩
    have htn : loopTest t w.now (afterFailures b t w.now dbs.Config n (loopEntry b w dbs))
        = false := by
      rw [loopTest_of_pos t _ _ hCT, (hlink n (le_refl _)).1]
      simpa using hout
    rw [Connect_of_noLiveHandle b t _ w dbs hdead,
      connectLoop_after b t w.now n f (loopEntry b w dbs) dbs _ hf ht,
      connectLoop_exit b t w.now f _ _ _ htn]
    have herr : (if n = 0 then some defaultConnectError
        else b.openErr ((loopEntry b w dbs).opens + (n - 1))) ≠ none := by
      cases n with
      | zero => simp
      | succ m => simpa using hf m (Nat.lt_succ_self m)
    obtain ⟨e, he⟩ := Option.ne_none_iff_exists'.mp herr
    rw [he]
    exact ⟨e, _, _, rfl, (hlink n (le_refl _)).2, (hlink n (le_refl _)).1⟩
  · intro j hj
    have := backoffEvents_at b t w.now dbs.Config n j (loopEntry b w dbs).now w.opens hj
    exact ⟨this.1, by rw [this.2]; rfl⟩
  · intro i j hij hj hreach
    rw [(backoffEvents_at b t w.now dbs.Config n j (loopEntry b w dbs).now w.opens hj).2]
    obtain ⟨d, rfl⟩ := Nat.exists_eq_add_of_le hij
    have hmono := backoffClock_le b t w.now d
      (backoffClock b t w.now i (loopEntry b w dbs).now w.opens) (w.opens + i)
    rw [← backoffClock_add] at hmono
    have hcost : (0 : Int) ≤ b.openCost (w.opens + (i + d)) := Int.ofNat_nonneg _
    have hslow : t.FastConnectTimeout
        ≤ backoffClock b t w.now (i + d) (loopEntry b w dbs).now w.opens
          + b.openCost (w.opens + (i + d)) - w.now := by
      rcases hreach with h | h
      · omega
      · cases d with
        | zero => exact h
        | succ d =>
          have h1 := backoffClock_le b t w.now d
            (backoffClock b t w.now (i + 1) (loopEntry b w dbs).now w.opens) (w.opens + (i + 1))
          rw [← backoffClock_add] at h1
          have h2 : backoffClock b t w.now (i + 1) (loopEntry b w dbs).now w.opens
              = backoffClock b t w.now i (loopEntry b w dbs).now w.opens
                + b.openCost (w.opens + i)
                + max (backoffRate t (backoffClock b t w.now i (loopEntry b w dbs).now w.opens
                    + b.openCost (w.opens + i) - w.now)) 0 := by
            rw [backoffClock_add b t w.now i 1]
            simp [backoffClock]
          have h3 := le_max_right
            (backoffRate t (backoffClock b t w.now i (loopEntry b w dbs).now w.opens
                    + b.openCost (w.opens + i) - w.now)) (0 : Int)
          have h4 : i + 1 + d = i + (d + 1) := by omega
          rw [h4] at h1
          omega
    unfold backoffRate
    rw [if_neg (not_lt.mpr hslow)]

/-- C11 on the backend that is down, with timeout 10, fast window 4, fast rate 2 and
slow rate 3: Connect returns an error after four failed attempts followed by sleeps
of 2, 2, 3 and 3.  And on the backend whose third attempt succeeds, each attempt
taking 7: two failed attempts, each followed by a slow sleep, then the success. -/
theorem Connect_two_tier_backoff_witness :
    (∃ e w1 dbs1, Connect backendDown shortTunables 4 freshWorld (freshSDAdb confDisable)
        = .returned (some e) w1 dbs1 ∧
      w1.trace =
        [Event.sqlOpen "postgres" (PgDataSource confDisable).2 false, Event.sleep 2,
         Event.sqlOpen "postgres" (PgDataSource confDisable).2 false, Event.sleep 2,
         Event.sqlOpen "postgres" (PgDataSource confDisable).2 false, Event.sleep 3,
         Event.sqlOpen "postgres" (PgDataSource confDisable).2 false, Event.sleep 3]) ∧
    (∃ w1, Connect backendSlowStart foreverTunables 3 freshWorld (freshSDAdb confDisable)
        = .returned none w1 ⟨some 2, -1, confDisable⟩ ∧
      w1.trace =
        [Event.sqlOpen "postgres" (PgDataSource confDisable).2 false, Event.sleep 3,
         Event.sqlOpen "postgres" (PgDataSource confDisable).2 false, Event.sleep 3,
         Event.sqlOpen "postgres" (PgDataSource confDisable).2 true]) := by
  constructor
  · obtain ⟨e, w1, dbs1, h1, h2, -⟩ :=
      (Connect_two_tier_backoff backendDown shortTunables freshWorld (freshSDAdb confDisable)
        4 rfl (by intro i _; simp [backendDown])
        (by
          intro i hi
          have : i = 0 ∨ i = 1 ∨ i = 2 ∨ i = 3 := by omega
          rcases this with rfl | rfl | rfl | rfl <;> exact Or.inr (by decide))).2.1
        (by decide) (by decide) 4 (le_refl _)
    exact ⟨e, w1, dbs1, h1, h2.trans rfl⟩
  · obtain ⟨w1, h1, h2⟩ :=
      (Connect_two_tier_backoff backendSlowStart foreverTunables freshWorld
        (freshSDAdb confDisable) 2 rfl
        (by
          intro i hi
          have : i = 0 ∨ i = 1 := by omega
          rcases this with rfl | rfl <;> simp [backendSlowStart, freshWorld])
        (by intro i _; exact Or.inl (by decide))).1
        (Or.inl (by decide)) rfl 3 (by decide)
    exact ⟨w1, h1, h2.trans rfl⟩

end Database
